import Mathlib

/-!
Verification of the MyBuddy note-extraction core.

This file gives a shallow embedding of the extraction and persistence core of
the MyBuddy personal-productivity application:

* `src/mybuddy/services/ai.py` — the rule-based pattern extractor
  (`_rule_based_extract`, `_extract_name_from_title`), the extraction
  orchestrator (`extract_from_note`) and the consistency writer
  (`_save_extractions`);
* `src/mybuddy/routes/notes.py` — note update and delete lifecycle handlers
  and the OCR image upload handler;
* `src/mybuddy/routes/actions.py` — the action-item toggle handler;
* `src/mybuddy/db.py` — the SQLite schema (cascade behaviour) and the
  `get_db` commit/rollback transaction scope.

Strings are modelled as `List Char` (`Str`).  The regular expressions from the
Python source are modelled by hand-written matchers that reproduce the
backtracking semantics of Python's `re` module on these concrete patterns
(case-insensitive matching, `re.MULTILINE` `$`, lazy `.+?`, greedy `\s+`/`\s*`
with backtracking, word boundaries).  Character classes (`\w`, `\s`, `[A-Z]`)
are modelled over their ASCII meaning.
-/

abbrev Str := List Char

def s2l (s : String) : Str := s.data

/-- Python `\s` (ASCII part): space, tab, newline, carriage return, vertical
tab, form feed. -/
def pySpace (c : Char) : Bool :=
  c = ' ' || c = '\t' || c = '\n' || c = '\r' || c = '\x0b' || c = '\x0c'

/-- Python `\w` (ASCII part): letters, digits, underscore. -/
def pyWord (c : Char) : Bool := c.isAlpha || c.isDigit || c = '_'

/-- Model of `[A-Z]`/`[a-z]` under `re.IGNORECASE`: any ASCII letter. -/
def asciiLetter (c : Char) : Bool := c.isAlpha

def lowerL (s : Str) : Str := s.map Char.toLower

/-- Python `str.strip()` with no argument: remove leading and trailing
whitespace. -/
def pyStrip (s : Str) : Str :=
  ((s.dropWhile pySpace).reverse.dropWhile pySpace).reverse

/-- Characters removed by `.rstrip(".,;!")` in `_rule_based_extract`. -/
def punctChar (c : Char) : Bool := c = '.' || c = ',' || c = ';' || c = '!'

/-- Python `str.rstrip(".,;!")`. -/
def rstripPunct (s : Str) : Str := (s.reverse.dropWhile punctChar).reverse

/-- Model of `desc = m.group(1).strip().rstrip(".,;!").strip()`. -/
def cleanDesc (g : Str) : Str := pyStrip (rstripPunct (pyStrip g))

/-- Python substring test `a in b` (contiguous). -/
def beginsWith : Str → Str → Bool
  | [], _ => true
  | _ :: _, [] => false
  | a :: as_, b :: bs => a = b && beginsWith as_ bs

def containsSub (a : Str) : Str → Bool
  | [] => a.isEmpty
  | c :: r => beginsWith a (c :: r) || containsSub a r

/-- Case-insensitive literal: `litCI pat s` matches the (lowercase) pattern
`pat` against the head of `s` and returns the rest of `s`. -/
def litCI : Str → Str → Option Str
  | [], s => some s
  | _ :: _, [] => none
  | p :: ps, c :: cs => if c.toLower = p then litCI ps cs else none

/-- Model of `\b` before a word character: the previous character (if any) is not a
word character. -/
def wordStart : Option Char → Bool
  | none => true
  | some c => !(pyWord c)

/-- Model of `\b` after a word character: the next character (if any) is not a word
character. -/
def wordEnd : Str → Bool
  | [] => true
  | c :: _ => !(pyWord c)

/-- Model of `.+?(?:\.|$)` under `re.MULTILINE`: lazily take at least one non-newline
character up to (excluding) the first `'.'` or `'\n'` or the end of input; a
matched `'.'` is consumed (it is part of the whole match but not of the lazy
group).  Returns `(lazily matched characters, rest after the whole tail)`. -/
def lazyTail : Str → Option (Str × Str)
  | [] => none
  | c :: r =>
    if c = '\n' then none
    else
      let more := r.takeWhile (fun d => !(d = '.') && !(d = '\n'))
      let rest := r.drop more.length
      match rest with
      | '.' :: r2 => some (c :: more, r2)
      | _ => some (c :: more, rest)

/-- Backtracking for `CLASS{m}.+?(?:\.|$)`: try the greedy run length `m`
first, then shorter ones.  Returns `(class run length used, lazy capture,
rest)`. -/
def clsLazyAux (s : Str) : Nat → Option (Nat × Str × Str)
  | 0 => none
  | m + 1 =>
    match lazyTail (s.drop (m + 1)) with
    | some (cap, rest) => some (m + 1, cap, rest)
    | none => clsLazyAux s m

/-- Model of `CLASS+.+?(?:\.|$)` (greedy class run, at least one char, with
backtracking); capture includes the class run. -/
def clsPlusLazy (p : Char → Bool) (t : Str) : Option (Str × Str) :=
  match clsLazyAux t (t.takeWhile p).length with
  | some (n, cap, rest) => some (t.take n ++ cap, rest)
  | none => none

/-- Model of `CLASS*.+?(?:\.|$)`; capture includes the class run. -/
def clsStarLazy (p : Char → Bool) (t : Str) : Option (Str × Str) :=
  match clsLazyAux t (t.takeWhile p).length with
  | some (n, cap, rest) => some (t.take n ++ cap, rest)
  | none => lazyTail t

/-- Model of `\b(CUE\b\s+.+?)(?:\.|$)` — the shape of the `should`, `must`,
`schedule`, `send`, `review`, `call` action patterns. -/
def simpleCue (cue : Str) (prev : Option Char) (s : Str) : Option (Str × Str) :=
  if wordStart prev then
    match litCI cue s with
    | none => none
    | some s1 =>
      if wordEnd s1 then
        match clsPlusLazy pySpace s1 with
        | some (tail, rest) => some (s.take (s.length - s1.length) ++ tail, rest)
        | none => none
      else none
  else none

/-- Model of `\b(W1\s+W2\b\s+.+?)(?:\.|$)` — `need to` and `have to`. -/
def twoWordCue (w1 w2 : Str) (prev : Option Char) (s : Str) : Option (Str × Str) :=
  if wordStart prev then
    match litCI w1 s with
    | none => none
    | some s1 =>
      let ws := s1.takeWhile pySpace
      if ws = [] then none
      else
        match litCI w2 (s1.drop ws.length) with
        | none => none
        | some s2 =>
          if wordEnd s2 then
            match clsPlusLazy pySpace s2 with
            | some (tail, rest) => some (s.take (s.length - s2.length) ++ tail, rest)
            | none => none
          else none
  else none

/-- Model of `[:\s]` for the `todo` and `remind` patterns. -/
def colonSpace (c : Char) : Bool := c = ':' || pySpace c

/-- Model of `[:\s]+(.+?)(?:\.|$)` — capture excludes the class run. -/
def colonTail (t : Str) : Option (Str × Str) :=
  match clsLazyAux t (t.takeWhile colonSpace).length with
  | some (_, cap, rest) => some (cap, rest)
  | none => none

/-- Model of `(?i)\btodo\b[:\s]+(.+?)(?:\.|$)`. -/
def mTodo (prev : Option Char) (s : Str) : Option (Str × Str) :=
  if wordStart prev then
    match litCI (s2l "todo") s with
    | none => none
    | some s1 => if wordEnd s1 then colonTail s1 else none
  else none

/-- Model of `(?i)\bremind(?:er)?\b[:\s]+(.+?)(?:\.|$)`: the optional `er` is tried
greedily; if its continuation fails the bare `remind` needs `\b`, which the
following `e` always refutes. -/
def mRemind (prev : Option Char) (s : Str) : Option (Str × Str) :=
  if wordStart prev then
    match litCI (s2l "remind") s with
    | none => none
    | some s1 =>
      let erBranch : Option (Str × Str) :=
        match litCI (s2l "er") s1 with
        | none => none
        | some s2 => if wordEnd s2 then colonTail s2 else none
      match erBranch with
      | some r => some r
      | none => if wordEnd s1 then colonTail s1 else none
  else none

/-- Model of `(?:with\s+).+?(?:\.|$)` at `u`; capture includes `with` and the
whitespace. -/
def withBranch (u : Str) : Option (Str × Str) :=
  match litCI (s2l "with") u with
  | none => none
  | some u1 =>
    match clsLazyAux u1 (u1.takeWhile pySpace).length with
    | some (n, cap, rest) => some (u.take (4 + n) ++ cap, rest)
    | none => none

/-- Model of `\s*(?:with\s+)?.+?(?:\.|$)` at `t`, trying the greedy `\s*` length `m`
first; inside each position the optional `with` branch is preferred. -/
def followTailAux (t : Str) : Nat → Option (Str × Str)
  | 0 =>
    (match withBranch t with
     | some r => some r
     | none => lazyTail t)
  | m + 1 =>
    match
      (match withBranch (t.drop (m + 1)) with
       | some r => some r
       | none => lazyTail (t.drop (m + 1))) with
    | some (cap, rest) => some (t.take (m + 1) ++ cap, rest)
    | none => followTailAux t m

def followTail (t : Str) : Option (Str × Str) :=
  followTailAux t (t.takeWhile pySpace).length

/-- Model of `(?i)\b(follow\s*up\b\s*(?:with\s+)?.+?)(?:\.|$)`. -/
def mFollowUpA (prev : Option Char) (s : Str) : Option (Str × Str) :=
  if wordStart prev then
    match litCI (s2l "follow") s with
    | none => none
    | some s1 =>
      let ws := s1.takeWhile pySpace
      match litCI (s2l "up") (s1.drop ws.length) with
      | none => none
      | some s2 =>
        if wordEnd s2 then
          match followTail s2 with
          | some (tail, rest) => some (s.take (s.length - s2.length) ++ tail, rest)
          | none => none
        else none
  else none

/-- Model of `(?i)\b(touch\s+base\b\s*.+?)(?:\.|$)`. -/
def mTouchBase (prev : Option Char) (s : Str) : Option (Str × Str) :=
  if wordStart prev then
    match litCI (s2l "touch") s with
    | none => none
    | some s1 =>
      let ws := s1.takeWhile pySpace
      if ws = [] then none
      else
        match litCI (s2l "base") (s1.drop ws.length) with
        | none => none
        | some s2 =>
          if wordEnd s2 then
            match clsStarLazy pySpace s2 with
            | some (tail, rest) => some (s.take (s.length - s2.length) ++ tail, rest)
            | none => none
          else none
  else none

/-- Model of `(?i)\b(keep\s+in\s+touch\b.+?)(?:\.|$)`. -/
def mKeepInTouch (prev : Option Char) (s : Str) : Option (Str × Str) :=
  if wordStart prev then
    match litCI (s2l "keep") s with
    | none => none
    | some s1 =>
      let ws := s1.takeWhile pySpace
      if ws = [] then none
      else
        match litCI (s2l "in") (s1.drop ws.length) with
        | none => none
        | some s2 =>
          let ws2 := s2.takeWhile pySpace
          if ws2 = [] then none
          else
            match litCI (s2l "touch") (s2.drop ws2.length) with
            | none => none
            | some s3 =>
              if wordEnd s3 then
                match lazyTail s3 with
                | some (cap, rest) => some (s.take (s.length - s3.length) ++ cap, rest)
                | none => none
              else none
  else none

/-- Model of `(?:with\s+)?(\w+)`: the optional `with` branch is tried first; if it
fails, `(\w+)` is matched directly (which may then capture the literal word
`with` itself). -/
def nameBranch (u : Str) : Option (Str × Str) :=
  let withPart : Option (Str × Str) :=
    match litCI (s2l "with") u with
    | none => none
    | some u1 =>
      let ws := u1.takeWhile pySpace
      if ws = [] then none
      else
        let u2 := u1.drop ws.length
        let w := u2.takeWhile pyWord
        if w = [] then none else some (w, u2.drop w.length)
  match withPart with
  | some r => some r
  | none =>
    let w := u.takeWhile pyWord
    if w = [] then none else some (w, u.drop w.length)

/-- Model of `\s*(?:with\s+)?(\w+)` at `t`, greedy `\s*` with backtracking. -/
def nameTailAux (t : Str) : Nat → Option (Str × Str)
  | 0 => nameBranch t
  | m + 1 =>
    match nameBranch (t.drop (m + 1)) with
    | some r => some r
    | none => nameTailAux t m

def nameTail (t : Str) : Option (Str × Str) :=
  nameTailAux t (t.takeWhile pySpace).length

/-- Model of `(?i)\bCUE\b\s+(\w+)` — the `call`, `phone`, `ring` reminder patterns. -/
def callLike (cue : Str) (prev : Option Char) (s : Str) : Option (Str × Str) :=
  if wordStart prev then
    match litCI cue s with
    | none => none
    | some s1 =>
      if wordEnd s1 then
        let ws := s1.takeWhile pySpace
        if ws = [] then none
        else
          let s2 := s1.drop ws.length
          let w := s2.takeWhile pyWord
          if w = [] then none else some (w, s2.drop w.length)
      else none
  else none

/-- Model of `(?i)\bfollow\s*up\b\s*(?:with\s+)?(\w+)`. -/
def mFollowUpN (prev : Option Char) (s : Str) : Option (Str × Str) :=
  if wordStart prev then
    match litCI (s2l "follow") s with
    | none => none
    | some s1 =>
      let ws := s1.takeWhile pySpace
      match litCI (s2l "up") (s1.drop ws.length) with
      | none => none
      | some s2 => if wordEnd s2 then nameTail s2 else none
  else none

/-- Model of `(?i)\btouch\s+base\b\s*(?:with\s+)?(\w+)`. -/
def mTouchBaseN (prev : Option Char) (s : Str) : Option (Str × Str) :=
  if wordStart prev then
    match litCI (s2l "touch") s with
    | none => none
    | some s1 =>
      let ws := s1.takeWhile pySpace
      if ws = [] then none
      else
        match litCI (s2l "base") (s1.drop ws.length) with
        | none => none
        | some s2 => if wordEnd s2 then nameTail s2 else none
  else none

/-- Model of `.*?(?:with\s+)?(\w+)`: lazy dot-star, trying the shortest non-newline
run first. -/
def dotStarName : Str → Option (Str × Str)
  | [] => none
  | c :: r =>
    match nameBranch (c :: r) with
    | some res => some res
    | none => if c = '\n' then none else dotStarName r

/-- Model of `(?i)\bkeep\s+in\s+touch\b.*?(?:with\s+)?(\w+)`. -/
def mKeepInTouchN (prev : Option Char) (s : Str) : Option (Str × Str) :=
  if wordStart prev then
    match litCI (s2l "keep") s with
    | none => none
    | some s1 =>
      let ws := s1.takeWhile pySpace
      if ws = [] then none
      else
        match litCI (s2l "in") (s1.drop ws.length) with
        | none => none
        | some s2 =>
          let ws2 := s2.takeWhile pySpace
          if ws2 = [] then none
          else
            match litCI (s2l "touch") (s2.drop ws2.length) with
            | none => none
            | some s3 =>
              if wordEnd s3 then
                match s3 with
                | [] => none
                | _ :: _ => dotStarName s3
              else none
  else none

/-- Model of `(?i)\bcheck\s+(?:in|back)\b\s*(?:with\s+)?(\w+)`. -/
def mCheckN (prev : Option Char) (s : Str) : Option (Str × Str) :=
  if wordStart prev then
    match litCI (s2l "check") s with
    | none => none
    | some s1 =>
      let ws := s1.takeWhile pySpace
      if ws = [] then none
      else
        let s2 := s1.drop ws.length
        let inBranch : Option (Str × Str) :=
          match litCI (s2l "in") s2 with
          | none => none
          | some s3 => if wordEnd s3 then nameTail s3 else none
        match inBranch with
        | some r => some r
        | none =>
          match litCI (s2l "back") s2 with
          | none => none
          | some s3 => if wordEnd s3 then nameTail s3 else none
  else none

/-- Model of `re.finditer` over a single pattern: scan left to right, emit
non-overlapping matches, continue after each whole match.  Returns
`(group 1, group 0)` pairs.  The fuel `s.length + 1` is enough because every
match of the modelled patterns consumes at least one character. -/
def findIterAux (m : Option Char → Str → Option (Str × Str)) :
    Nat → Option Char → Str → List (Str × Str)
  | 0, _, _ => []
  | fuel + 1, prev, s =>
    match m prev s with
    | some (cap, rest) =>
      let whole := s.take (s.length - rest.length)
      (cap, whole) :: findIterAux m fuel whole.getLast? rest
    | none =>
      match s with
      | [] => []
      | c :: r => findIterAux m fuel (some c) r

def findIter (m : Option Char → Str → Option (Str × Str)) (s : Str) :
    List (Str × Str) :=
  findIterAux m (s.length + 1) none s

/-- Model of `(?i)\bwith\s+([A-Z][a-z]+(?:\s+[A-Z][a-z]+)?)` — note that the
`re.IGNORECASE` flag makes the character classes `[A-Z]` and `[a-z]` match
any ASCII letter. -/
def mWithName (prev : Option Char) (s : Str) : Option Str :=
  if wordStart prev then
    match litCI (s2l "with") s with
    | none => none
    | some s1 =>
      let ws := s1.takeWhile pySpace
      if ws = [] then none
      else
        let s2 := s1.drop ws.length
        let w1 := s2.takeWhile asciiLetter
        if w1.length < 2 then none
        else
          let s3 := s2.drop w1.length
          let ws2 := s3.takeWhile pySpace
          if ws2 = [] then some w1
          else
            let w2 := (s3.drop ws2.length).takeWhile asciiLetter
            if w2.length < 2 then some w1 else some (w1 ++ ws2 ++ w2)
  else none

/-- Model of `re.search` for the title pattern: first matching position wins. -/
def searchWith (prev : Option Char) : Str → Option Str
  | [] =>
    (match mWithName prev [] with
     | some cap => some cap
     | none => none)
  | c :: r =>
    match mWithName prev (c :: r) with
    | some cap => some cap
    | none => searchWith (some c) r

/-- Model of `_extract_name_from_title` from `services/ai.py`. -/
def extract_name_from_title (title : Str) : Option Str :=
  searchWith none title

/-! ### The structured extraction result

Mirrors the dict shape produced by `_rule_based_extract` and expected by
`_save_extractions` (the `type` key of a reminder is written `rtype` here). -/

structure ActionItemC where
  description : Str
  due_date : Str
deriving DecidableEq, Repr

structure ContactC where
  name : Str
  phone : Str
  email : Str
deriving DecidableEq, Repr

structure ReminderC where
  contact_name : Str
  rtype : Str
  message : Str
  due_date : Str
deriving DecidableEq, Repr

structure ExtractData where
  action_items : List ActionItemC
  contacts : List ContactC
  reminders : List ReminderC
deriving DecidableEq, Repr

/-- Model of `_ACTION_PATTERNS`, in source order. -/
def ACTION_PATTERNS : List (Option Char → Str → Option (Str × Str)) :=
  [ twoWordCue (s2l "need") (s2l "to")
  , simpleCue (s2l "should")
  , twoWordCue (s2l "have") (s2l "to")
  , simpleCue (s2l "must")
  , mTodo
  , mFollowUpA
  , mTouchBase
  , mKeepInTouch
  , mRemind
  , simpleCue (s2l "schedule")
  , simpleCue (s2l "send")
  , simpleCue (s2l "review")
  , simpleCue (s2l "call") ]

/-- Model of `_CALL_PATTERNS`, in source order. -/
def CALL_PATTERNS : List (Option Char → Str → Option (Str × Str)) :=
  [ callLike (s2l "call")
  , callLike (s2l "phone")
  , callLike (s2l "ring") ]

/-- Model of `_FOLLOWUP_PATTERNS`, in source order. -/
def FOLLOWUP_PATTERNS : List (Option Char → Str → Option (Str × Str)) :=
  [ mFollowUpN, mTouchBaseN, mKeepInTouchN, mCheckN ]

/-- Model of `_STOP_WORDS`. -/
def STOP_WORDS : List Str :=
  [ "me", "him", "her", "them", "us", "it", "this", "that", "the", "a", "an",
    "and", "or", "but", "in", "on", "at", "to", "for", "of", "with", "about",
    "back", "up", "out", "my", "your", "his", "their", "our", "via", "email",
    "phone", "monday", "tuesday", "wednesday", "thursday", "friday",
    "saturday", "sunday", "tomorrow", "today", "next", "week", "month",
    "year", "asap" ].map s2l

/-- All `(group 1, group 0)` matches of a list of patterns over `text`, in
pattern order then position order — the iteration order of the nested
`for pattern ...: for m in re.finditer(...)` loops. -/
def allMatches (pats : List (Option Char → Str → Option (Str × Str)))
    (text : Str) : List (Str × Str) :=
  (pats.map (fun p => findIter p text)).flatten

/-- One step of the action-item loop body in `_rule_based_extract`; the state
is `(seen_actions, data["action_items"])`. -/
def actionStep (st : List Str × List ActionItemC) (g : Str) :
    List Str × List ActionItemC :=
  let seen := st.1
  let items := st.2
  let desc := cleanDesc g
  if desc.isEmpty || desc.length ≤ 3 then st
  else
    let lower := lowerL desc
    if seen.any (fun s => containsSub lower s || containsSub s lower) then st
    else
      let seen2 := seen.filter (fun s => !(containsSub s lower))
      let items2 :=
        items.filter (fun a => !(containsSub (lowerL a.description) lower))
      (seen2 ++ [lower], items2 ++ [⟨desc, []⟩])

/-- The action-item extraction phase of `_rule_based_extract`. -/
def extractActions (text : Str) : List ActionItemC :=
  (((allMatches ACTION_PATTERNS text).map Prod.fst).foldl actionStep ([], [])).2

/-- Python `set.add`: the element set of `contact_names`, as an
insertion-ordered duplicate-free list (iteration order is abstracted by the
`ord` parameter of `rule_based_extract`). -/
def addName (l : List Str) (n : Str) : List Str :=
  if l.contains n then l else l ++ [n]

/-- Model of `name[0].isupper()`; a captured `\w+` group is never empty, so the
`[]` case is unreachable. -/
def headIsUpper : Str → Bool
  | [] => false
  | c :: _ => c.isUpper

/-- The contact-name collection phase of `_rule_based_extract`: the name from
the title (if any) plus every stripped `(\w+)` capture of the call/follow-up
patterns that is not a stop word and starts with an uppercase letter. -/
def collectNames (title text : Str) : List Str :=
  let base : List Str :=
    match extract_name_from_title title with
    | some n => [n]
    | none => []
  ((allMatches (CALL_PATTERNS ++ FOLLOWUP_PATTERNS) text).map Prod.fst).foldl
    (fun acc g =>
      let name := pyStrip g
      if !(STOP_WORDS.contains (lowerL name)) && headIsUpper name then
        addName acc name
      else acc)
    base

/-- The reminder extraction loops of `_rule_based_extract` for one pattern
family (`rty` is `"call"` or `"follow_up"`). -/
def remindersFrom (rty : Str)
    (pats : List (Option Char → Str → Option (Str × Str))) (text : Str) :
    List ReminderC :=
  (allMatches pats text).filterMap (fun gw =>
    let name := pyStrip gw.1
    if !(STOP_WORDS.contains (lowerL name)) && headIsUpper name then
      some ⟨name, rty, pyStrip gw.2, []⟩
    else none)

/-- Python line-break characters recognised by `str.splitlines` (ASCII and
Latin-1 part). -/
def isLineBreak (c : Char) : Bool :=
  c = '\n' || c = '\r' || c = '\x0b' || c = '\x0c' ||
  c = '\x1c' || c = '\x1d' || c = '\x1e' || c = '\x85' ||
  c = '\u2028' || c = '\u2029'

def pySplitlinesAux : Nat → Str → List Str
  | 0, _ => []
  | _, [] => []
  | fuel + 1, s =>
    let line := s.takeWhile (fun c => !(isLineBreak c))
    let rest := s.drop line.length
    match rest with
    | [] => [line]
    | '\r' :: '\n' :: r => line :: pySplitlinesAux fuel r
    | _ :: r => line :: pySplitlinesAux fuel r

/-- Python `str.splitlines()`. -/
def pySplitlines (s : Str) : List Str := pySplitlinesAux (s.length + 1) s

/-- Model of `_rule_based_extract` from `services/ai.py`.

`ord` abstracts the iteration order of the Python `set` `contact_names`
(which depends on the interpreter's string hashing, not on the input); it is
applied to the insertion-ordered list of collected names when the `contacts`
list is emitted.  Every realisable iteration order is a permutation of the
collected names. -/
def rule_based_extract (ord : List Str → List Str) (title content : Str) :
    ExtractData :=
  let text := title ++ '\n' :: content
  let actions := extractActions text
  let names := collectNames title text
  let contacts : List ContactC := (ord names).map (fun n => ⟨n, [], []⟩)
  let reminders :=
    remindersFrom (s2l "call") CALL_PATTERNS text ++
    remindersFrom (s2l "follow_up") FOLLOWUP_PATTERNS text
  let actions2 :=
    if !names.isEmpty && actions.isEmpty then
      (pySplitlines text).filterMap (fun l =>
        let l2 := pyStrip l
        if !l2.isEmpty && l2.length > 5 then
          some (⟨l2, []⟩ : ActionItemC)
        else none)
    else actions
  ⟨actions2, contacts, reminders⟩

/-! ### Relational store model (`db.py` schema)

Rows of the five tables; `is_completed`/`is_dismissed` are SQLite INTEGER
columns.  The `next_*_id` counters model the AUTOINCREMENT rowid sources. -/

structure NoteRow where
  id : Nat
  title : Str
  content : Str
  created_at : Str
  updated_at : Str
deriving DecidableEq, Repr

structure ContactRow where
  id : Nat
  name : Str
  phone : Str
  email : Str
deriving DecidableEq, Repr

structure ActionRow where
  id : Nat
  note_id : Nat
  description : Str
  is_completed : Int
  due_date : Str
deriving DecidableEq, Repr

structure LinkRow where
  note_id : Nat
  contact_id : Nat
deriving DecidableEq, Repr

structure ReminderRow where
  id : Nat
  contact_id : Nat
  reminder_type : Str
  message : Str
  is_dismissed : Int
  due_date : Str
deriving DecidableEq, Repr

structure DB where
  notes : List NoteRow
  contacts : List ContactRow
  action_items : List ActionRow
  note_contacts : List LinkRow
  reminders : List ReminderRow
  next_contact_id : Nat
  next_action_id : Nat
  next_reminder_id : Nat
deriving DecidableEq, Repr

/-! ### `_save_extractions` (consistency writer) -/

/-- Model of `INSERT INTO action_items (note_id, description, due_date)`. -/
def insertActionRow (db : DB) (nid : Nat) (it : ActionItemC) : DB :=
  { db with
    action_items :=
      db.action_items ++ [⟨db.next_action_id, nid, it.description, 0, it.due_date⟩],
    next_action_id := db.next_action_id + 1 }

/-- Model of `UPDATE contacts SET phone = ? WHERE id = ? AND phone = ''`. -/
def fillPhone (db : DB) (cid : Nat) (v : Str) : DB :=
  { db with
    contacts := db.contacts.map (fun x =>
      if x.id == cid && x.phone.isEmpty then { x with phone := v } else x) }

/-- Model of `UPDATE contacts SET email = ? WHERE id = ? AND email = ''`. -/
def fillEmail (db : DB) (cid : Nat) (v : Str) : DB :=
  { db with
    contacts := db.contacts.map (fun x =>
      if x.id == cid && x.email.isEmpty then { x with email := v } else x) }

/-- Model of `INSERT OR IGNORE INTO note_contacts (note_id, contact_id)` under the
composite primary key. -/
def insertLink (db : DB) (nid cid : Nat) : DB :=
  if db.note_contacts.any (fun l => l.note_id == nid && l.contact_id == cid) then db
  else { db with note_contacts := db.note_contacts ++ [⟨nid, cid⟩] }

/-- The body of the contacts loop of `_save_extractions`: upsert by exact
name, fill only empty phone/email, record the name→id mapping, link the note.
The state is `(db, contact_map)`; the map models a Python dict where a later
assignment shadows an earlier one. -/
def upsertContact (nid : Nat) (st : DB × List (Str × Nat)) (c : ContactC) :
    DB × List (Str × Nat) :=
  let db := st.1
  let cmap := st.2
  match db.contacts.find? (fun r => r.name == c.name) with
  | some r =>
    let db1 := if !c.phone.isEmpty then fillPhone db r.id c.phone else db
    let db2 := if !c.email.isEmpty then fillEmail db1 r.id c.email else db1
    (insertLink db2 nid r.id, (c.name, r.id) :: cmap)
  | none =>
    let cid := db.next_contact_id
    let db1 :=
      { db with
        contacts := db.contacts ++ [⟨cid, c.name, c.phone, c.email⟩],
        next_contact_id := cid + 1 }
    (insertLink db1 nid cid, (c.name, cid) :: cmap)

/-- Model of `contact_map.get(name)`. -/
def lookupMap (m : List (Str × Nat)) (k : Str) : Option Nat :=
  (m.find? (fun p => p.1 == k)).map (·.2)

/-- The body of the reminders loop of `_save_extractions`.  The `if not cid`
truthiness test of the Python source treats both a missing key and id `0` as
absent; id `0` is likewise dropped by the final `if cid` test. -/
def saveReminder (cmap : List (Str × Nat)) (db : DB) (r : ReminderC) : DB :=
  let cid0 := lookupMap cmap r.contact_name
  let cid1 :=
    if cid0 = none || cid0 = some 0 then
      match db.contacts.find? (fun x => x.name == r.contact_name) with
      | some row => some row.id
      | none => cid0
    else cid0
  match cid1 with
  | some cid =>
    if cid ≠ 0 then
      { db with
        reminders :=
          db.reminders ++
            [⟨db.next_reminder_id, cid, r.rtype, r.message, 0, r.due_date⟩],
        next_reminder_id := db.next_reminder_id + 1 }
    else db
  | none => db

/-- Model of `_save_extractions(note_id, data)` from `services/ai.py`: action-item
inserts, contact upserts with note links, then reminder inserts. -/
def save_extractions (db : DB) (nid : Nat) (data : ExtractData) : DB :=
  let db1 := data.action_items.foldl (fun d it => insertActionRow d nid it) db
  let st := data.contacts.foldl (upsertContact nid) (db1, [])
  data.reminders.foldl (saveReminder st.2) st.1

/-! ### `extract_from_note` (orchestrator) -/

/-- Outcome of the guarded AI block in `extract_from_note` (client call,
fence stripping and JSON parsing together): either structured data, or any
exception (network error, malformed JSON, ...). -/
inductive AIOutcome where
  | ok (d : ExtractData)
  | exc
deriving DecidableEq, Repr

/-- The `data` value after the `if api_key: try/except` block of
`extract_from_note`: the `except` clause only logs, leaving `data = None`. -/
def aiPath (apiKey : Str) (ai : AIOutcome) : Option ExtractData :=
  if !apiKey.isEmpty then
    match ai with
    | .ok d => some d
    | .exc => none
  else none

/-- The structured data `extract_from_note` hands to `_save_extractions`:
the AI result if the key is configured and the guarded block succeeded,
otherwise the rule-based fallback. -/
def extract_from_note_data (apiKey : Str) (ai : AIOutcome)
    (ord : List Str → List Str) (title content : Str) : ExtractData :=
  match aiPath apiKey ai with
  | some d => d
  | none => rule_based_extract ord title content

/-- Model of `extract_from_note(note_id, title, content)` as a store transformer. -/
def extract_from_note (apiKey : Str) (ai : AIOutcome)
    (ord : List Str → List Str) (db : DB) (nid : Nat) (title content : Str) :
    DB :=
  save_extractions db nid (extract_from_note_data apiKey ai ord title content)

/-! ### Note lifecycle (`routes/notes.py`) -/

/-- Model of `SELECT contact_id FROM note_contacts WHERE note_id = ?`. -/
def linkedContactIds (db : DB) (nid : Nat) : List Nat :=
  (db.note_contacts.filter (fun l => l.note_id == nid)).map (·.contact_id)

/-- Model of `SELECT 1 FROM note_contacts WHERE contact_id = ? AND note_id != ?`
(non-emptiness). -/
def otherNoteLinks (db : DB) (cid nid : Nat) : Bool :=
  db.note_contacts.any (fun l => l.contact_id == cid && l.note_id != nid)

/-- The body of the reminder-cleanup loop of `update_note`: delete the
reminders of contact `cid` only if no other note links to it. -/
def reminderCleanupStep (nid : Nat) (d : DB) (cid : Nat) : DB :=
  if otherNoteLinks d cid nid then d
  else { d with reminders := d.reminders.filter (fun r => r.contact_id != cid) }

/-- The cleanup phase of `update_note` (everything inside the `with get_db()`
block, before re-extraction): update the note row, delete its action items,
delete the reminders of each currently linked contact that no other note
links to, delete the note's links. -/
def update_note_cleanup (db : DB) (nid : Nat) (title content now : Str) : DB :=
  let db1 :=
    { db with
      notes := db.notes.map (fun (n : NoteRow) =>
        if n.id == nid then
          { n with title := title, content := content, updated_at := now }
        else n) }
  let db2 :=
    { db1 with action_items := db1.action_items.filter (fun a => a.note_id != nid) }
  let cids := linkedContactIds db2 nid
  let db3 := cids.foldl (reminderCleanupStep nid) db2
  { db3 with note_contacts := db3.note_contacts.filter (fun l => l.note_id != nid) }

/-- Model of `update_note`: cleanup, then re-extraction on the new content.  `data` is
the structured extraction produced for the new `(title, content)` (by either
extraction path). -/
def update_note (db : DB) (nid : Nat) (title content now : Str)
    (data : ExtractData) : DB :=
  save_extractions (update_note_cleanup db nid title content now) nid data

/-- The orphan query of `delete_note`:
`SELECT contact_id FROM note_contacts WHERE note_id = ? AND contact_id NOT IN
(SELECT contact_id FROM note_contacts WHERE note_id != ?)`. -/
def orphanContactIds (db : DB) (nid : Nat) : List Nat :=
  (db.note_contacts.filter (fun l =>
    l.note_id == nid &&
      !(db.note_contacts.any (fun l2 =>
        l2.contact_id == l.contact_id && l2.note_id != nid)))).map (·.contact_id)

/-- Model of `DELETE FROM contacts WHERE id = ?` with the schema's `ON DELETE CASCADE`
on `reminders.contact_id` and `note_contacts.contact_id`. -/
def deleteContactCascade (d : DB) (cid : Nat) : DB :=
  { d with
    contacts := d.contacts.filter (fun c => c.id != cid),
    reminders := d.reminders.filter (fun r => r.contact_id != cid),
    note_contacts := d.note_contacts.filter (fun l => l.contact_id != cid) }

/-- Model of `delete_note`: collect the orphan contacts, delete the note
(`ON DELETE CASCADE` removes its action items and links), then delete each
orphan contact (cascading away its reminders). -/
def delete_note (db : DB) (nid : Nat) : DB :=
  let orphans := orphanContactIds db nid
  let db1 :=
    { db with
      notes := db.notes.filter (fun n => n.id != nid),
      action_items := db.action_items.filter (fun a => a.note_id != nid),
      note_contacts := db.note_contacts.filter (fun l => l.note_id != nid) }
  orphans.foldl deleteContactCascade db1

/-! ### `toggle_action` (`routes/actions.py`) -/

/-- SQLite `NOT x` on an INTEGER: `1` if `x` is zero, else `0`. -/
def sqliteNot (x : Int) : Int := if x = 0 then 1 else 0

structure ToggleResult where
  db : DB
  status : Nat
deriving DecidableEq, Repr

/-- Model of `toggle_action`: flip `is_completed` of the row with the given id, then
re-select the row joined with its note; a missing row yields a 404
response. -/
def toggle_action (db : DB) (aid : Nat) : ToggleResult :=
  let db1 :=
    { db with
      action_items := db.action_items.map (fun (a : ActionRow) =>
        if a.id == aid then { a with is_completed := sqliteNot a.is_completed }
        else a) }
  match db1.action_items.find? (fun a => a.id == aid) with
  | some a =>
    match db1.notes.find? (fun n => n.id == a.note_id) with
    | some _ => ⟨db1, 200⟩
    | none => ⟨db1, 404⟩
  | none => ⟨db1, 404⟩

/-! ### `ocr_image` (`routes/notes.py`) -/

def ALLOWED_IMAGE_TYPES : List Str :=
  ["image/jpeg", "image/png", "image/gif", "image/webp"].map s2l

def MAX_IMAGE_SIZE : Nat := 5 * 1024 * 1024

/-- Outcome of `extract_text_from_image`: extracted text, a `ValueError`
(missing credential), or any other exception. -/
inductive OcrOutcome where
  | ok (text : Str)
  | valueError (msg : Str)
  | failure
deriving DecidableEq, Repr

structure OcrResult where
  status : Nat
  body : Str
  serviceCalls : Nat
deriving DecidableEq, Repr

/-- Model of `text.replace("\\", "\\\\").replace("`", "\\`").replace("$", "\\$")`. -/
def escapeJs (s : Str) : Str :=
  let r1 := (s.map (fun c => if c = '\\' then [c, c] else [c])).flatten
  let r2 := (r1.map (fun c => if c = '\x60' then ['\\', c] else [c])).flatten
  (r2.map (fun c => if c = '$' then ['\\', c] else [c])).flatten

def ocrUnsupportedBody : Str :=
  s2l "<div class=\"ocr-error\" role=\"alert\">Unsupported file type. Please upload a JPEG, PNG, GIF, or WebP image.</div>"

def ocrTooLargeBody : Str :=
  s2l "<div class=\"ocr-error\" role=\"alert\">Image too large. Maximum size is 5 MB.</div>"

def ocrValueErrorBody (msg : Str) : Str :=
  s2l "<div class=\"ocr-error\" role=\"alert\">" ++ msg ++ s2l "</div>"

def ocrFailureBody : Str :=
  s2l "<div class=\"ocr-error\" role=\"alert\">Text extraction failed. Please try again.</div>"

def ocrSuccessBody (text : Str) : Str :=
  s2l "<div class=\"ocr-success\">Text extracted successfully.</div><script>(function()\x7b var ta=document.getElementById(\x27content\x27); var extracted=\x60" ++
  escapeJs text ++
  s2l "\x60; if(ta.value.trim()) ta.value += \x27\\n\\n---\\n\\n\x27 + extracted; else ta.value = extracted; \x7d)()</script>"

/-- Model of `ocr_image(request, file)`: content-type check first, then size check,
then the external extraction call (`serviceCalls` counts invocations of
`extract_text_from_image`). -/
def ocr_image (contentType : Str) (imageSize : Nat) (svc : OcrOutcome) :
    OcrResult :=
  if !(ALLOWED_IMAGE_TYPES.contains contentType) then
    ⟨422, ocrUnsupportedBody, 0⟩
  else if imageSize > MAX_IMAGE_SIZE then
    ⟨422, ocrTooLargeBody, 0⟩
  else
    match svc with
    | .ok text => ⟨200, ocrSuccessBody text, 1⟩
    | .valueError msg => ⟨422, ocrValueErrorBody msg, 1⟩
    | .failure => ⟨500, ocrFailureBody, 1⟩

/-! ### Transactional semantics of `_save_extractions` (C4)

Every `db.execute` call is a potential failure point (modelled by the oracle
`fail`, consulted with a running call counter); an error aborts the whole
body.  `get_db` commits on success and rolls back — leaving the store
unchanged — on any exception. -/

def tick (fail : Nat → Bool) (k : Nat) : Except Unit Nat :=
  if fail k then .error () else .ok (k + 1)

def saveActionsT (fail : Nat → Bool) (nid : Nat) :
    List ActionItemC → DB → Nat → Except Unit (DB × Nat)
  | [], db, k => .ok (db, k)
  | it :: rest, db, k =>
    match tick fail k with
    | .error e => .error e
    | .ok k2 => saveActionsT fail nid rest (insertActionRow db nid it) k2

def upsertContactT (fail : Nat → Bool) (nid : Nat) (c : ContactC) (db : DB)
    (cmap : List (Str × Nat)) (k : Nat) :
    Except Unit (DB × List (Str × Nat) × Nat) :=
  match tick fail k with
  | .error e => .error e
  | .ok k1 =>
    match db.contacts.find? (fun r => r.name == c.name) with
    | some r =>
      let phoneStep : Except Unit (DB × Nat) :=
        if !c.phone.isEmpty then
          match tick fail k1 with
          | .error e => .error e
          | .ok k2 => .ok (fillPhone db r.id c.phone, k2)
        else .ok (db, k1)
      match phoneStep with
      | .error e => .error e
      | .ok (db1, k2) =>
        let emailStep : Except Unit (DB × Nat) :=
          if !c.email.isEmpty then
            match tick fail k2 with
            | .error e => .error e
            | .ok k3 => .ok (fillEmail db1 r.id c.email, k3)
          else .ok (db1, k2)
        match emailStep with
        | .error e => .error e
        | .ok (db2, k3) =>
          match tick fail k3 with
          | .error e => .error e
          | .ok k4 => .ok (insertLink db2 nid r.id, (c.name, r.id) :: cmap, k4)
    | none =>
      match tick fail k1 with
      | .error e => .error e
      | .ok k2 =>
        let cid := db.next_contact_id
        let db1 :=
          { db with
            contacts := db.contacts ++ [⟨cid, c.name, c.phone, c.email⟩],
            next_contact_id := cid + 1 }
        match tick fail k2 with
        | .error e => .error e
        | .ok k3 => .ok (insertLink db1 nid cid, (c.name, cid) :: cmap, k3)

def saveContactsT (fail : Nat → Bool) (nid : Nat) :
    List ContactC → DB → List (Str × Nat) → Nat →
    Except Unit (DB × List (Str × Nat) × Nat)
  | [], db, cmap, k => .ok (db, cmap, k)
  | c :: rest, db, cmap, k =>
    match upsertContactT fail nid c db cmap k with
    | .error e => .error e
    | .ok (db1, cmap1, k1) => saveContactsT fail nid rest db1 cmap1 k1

def saveReminderT (fail : Nat → Bool) (cmap : List (Str × Nat))
    (r : ReminderC) (db : DB) (k : Nat) : Except Unit (DB × Nat) :=
  let cid0 := lookupMap cmap r.contact_name
  let resolveStep : Except Unit (Option Nat × Nat) :=
    if cid0 = none || cid0 = some 0 then
      match tick fail k with
      | .error e => .error e
      | .ok k1 =>
        match db.contacts.find? (fun x => x.name == r.contact_name) with
        | some row => .ok (some row.id, k1)
        | none => .ok (cid0, k1)
    else .ok (cid0, k)
  match resolveStep with
  | .error e => .error e
  | .ok (cid1, k1) =>
    match cid1 with
    | some cid =>
      if cid ≠ 0 then
        match tick fail k1 with
        | .error e => .error e
        | .ok k2 =>
          .ok
            ({ db with
               reminders :=
                 db.reminders ++
                   [⟨db.next_reminder_id, cid, r.rtype, r.message, 0, r.due_date⟩],
               next_reminder_id := db.next_reminder_id + 1 }, k2)
      else .ok (db, k1)
    | none => .ok (db, k1)

def saveRemindersT (fail : Nat → Bool) (cmap : List (Str × Nat)) :
    List ReminderC → DB → Nat → Except Unit (DB × Nat)
  | [], db, k => .ok (db, k)
  | r :: rest, db, k =>
    match saveReminderT fail cmap r db k with
    | .error e => .error e
    | .ok (db1, k1) => saveRemindersT fail cmap rest db1 k1

/-- Model of `_save_extractions` with every statement a potential failure point. -/
def save_extractionsT (fail : Nat → Bool) (nid : Nat) (data : ExtractData)
    (db : DB) : Except Unit (DB × Nat) :=
  match saveActionsT fail nid data.action_items db 0 with
  | .error e => .error e
  | .ok (db1, k1) =>
    match saveContactsT fail nid data.contacts db1 [] k1 with
    | .error e => .error e
    | .ok (db2, cmap, k2) => saveRemindersT fail cmap data.reminders db2 k2

/-- The `get_db` context manager of `db.py`: run the body on the store,
commit its result on success, roll back to the original store on any
exception. -/
def get_db (body : DB → Except Unit (DB × Nat)) (db : DB) : DB :=
  match body db with
  | .ok r => r.1
  | .error _ => db

/-! ### Derived predicates and auxiliary definitions used by the theorems -/

/-- The action rows inserted by the action-item phase of
`_save_extractions`, given the first fresh id. -/
def mkActionRows (nid : Nat) : Nat → List ActionItemC → List ActionRow
  | _, [] => []
  | k, it :: rest => ⟨k, nid, it.description, 0, it.due_date⟩ :: mkActionRows nid (k + 1) rest

/-- Contact `cid` is linked to note `nid` and to no other note. -/
def ExclusivelyLinked (db : DB) (nid cid : Nat) : Prop :=
  (∃ l ∈ db.note_contacts, l.note_id = nid ∧ l.contact_id = cid) ∧
  ¬ ∃ l ∈ db.note_contacts, l.contact_id = cid ∧ l.note_id ≠ nid

instance (db : DB) (nid cid : Nat) : Decidable (ExclusivelyLinked db nid cid) := by
  unfold ExclusivelyLinked; infer_instance

/-- Schema invariants of the `contacts` table: unique rowids (primary key),
unique names (`UNIQUE`), and rowids below the autoincrement counter. -/
def ContactsWF (db : DB) : Prop :=
  (db.contacts.map (·.id)).Nodup ∧ (db.contacts.map (·.name)).Nodup ∧
  ∀ c ∈ db.contacts, c.id < db.next_contact_id

/-- Pointwise form of the conditional `UPDATE contacts SET phone = ...` of the
contact upsert: fill the phone of row `cid` only when it is empty and a
non-empty value is supplied.  Used to state the effect of the upsert on a
single row. -/
def phoneUpd (cid : Nat) (v : Str) (x : ContactRow) : ContactRow :=
  if x.id = cid ∧ x.phone = [] ∧ v ≠ [] then { x with phone := v } else x

/-- Pointwise form of the conditional `UPDATE contacts SET email = ...`. -/
def emailUpd (cid : Nat) (v : Str) (x : ContactRow) : ContactRow :=
  if x.id = cid ∧ x.email = [] ∧ v ≠ [] then { x with email := v } else x

/-- Every row of `l1` survives into `l2` with its identity and name. -/
def KeepsRows (l1 l2 : List ContactRow) : Prop :=
  ∀ r ∈ l1, ∃ r' ∈ l2, r'.id = r.id ∧ r'.name = r.name

instance (db : DB) : Decidable (ContactsWF db) := by
  unfold ContactsWF; infer_instance

/-- A word of at least two ASCII letters — what `[A-Z][a-z]+` matches under
`re.IGNORECASE`. -/
def LettersWord (w : Str) : Prop :=
  2 ≤ w.length ∧ ∀ c ∈ w, asciiLetter c = true

/-- Shape of a name captured by the title pattern: one letters-word, or two
letters-words joined by whitespace. -/
def NameShape (s : Str) : Prop :=
  LettersWord s ∨
  ∃ w1 ws w2, s = w1 ++ ws ++ w2 ∧ LettersWord w1 ∧ ws ≠ [] ∧
    (∀ c ∈ ws, pySpace c = true) ∧ LettersWord w2

/-- Concrete store used by the witnesses: two notes; contact 1 (`Anna`)
linked only to note 1, contact 2 (`Bob`, phone already set) linked to notes 1
and 2; one reminder per contact. -/
def dbW : DB :=
  { notes := [⟨1, s2l "N1", s2l "c1", [], []⟩, ⟨2, s2l "N2", s2l "c2", [], []⟩]
  , contacts := [⟨1, s2l "Anna", [], []⟩, ⟨2, s2l "Bob", s2l "555", []⟩]
  , action_items := [⟨1, 1, s2l "x1", 0, []⟩, ⟨2, 2, s2l "y2", 1, []⟩]
  , note_contacts := [⟨1, 1⟩, ⟨1, 2⟩, ⟨2, 2⟩]
  , reminders :=
      [⟨1, 1, s2l "call", s2l "call Anna", 0, []⟩,
       ⟨2, 2, s2l "follow_up", s2l "fu Bob", 0, []⟩]
  , next_contact_id := 3, next_action_id := 3, next_reminder_id := 3 }

/-- Concrete extraction used by the witnesses: one action item; an update to
both existing contacts (`Bob` supplies a new phone that must not overwrite,
`Anna` supplies a phone for an empty field) and one new contact; one
resolvable and one unresolvable reminder. -/
def dataW : ExtractData :=
  { action_items := [⟨s2l "do it", []⟩]
  , contacts :=
      [⟨s2l "Bob", s2l "777", s2l "b@x"⟩, ⟨s2l "Anna", s2l "123", []⟩,
       ⟨s2l "Cid", [], []⟩]
  , reminders :=
      [⟨s2l "Cid", s2l "call", s2l "call Cid", []⟩,
       ⟨s2l "Ghost", s2l "call", s2l "m", []⟩] }

theorem mWithName_shape (prev : Option Char) (u : Str) (s : Str)
    (h : mWithName prev u = some s) : NameShape s := by
  unfold mWithName at h
  split at h
  · split at h
    · exact absurd h (by simp)
    · dsimp only at h
      split at h
      · exact absurd h (by simp)
      · split at h
        · exact absurd h (by simp)
        · split at h
          · injection h with h
            subst h
            exact Or.inl ⟨by omega, fun c hc => List.mem_takeWhile_imp hc⟩
          · split at h
            · injection h with h
              subst h
              exact Or.inl ⟨by omega, fun c hc => List.mem_takeWhile_imp hc⟩
            · injection h with h
              subst h
              refine Or.inr ⟨_, _, _, rfl, ⟨by omega, fun c hc => List.mem_takeWhile_imp hc⟩,
                by assumption, fun c hc => List.mem_takeWhile_imp hc,
                ⟨by omega, fun c hc => List.mem_takeWhile_imp hc⟩⟩
  · exact absurd h (by simp)

theorem searchWith_shape : ∀ (t : Str) (prev : Option Char) (s : Str),
    searchWith prev t = some s → NameShape s := by
  intro t
  induction t with
  | nil =>
    intro prev s h
    unfold searchWith at h
    split at h
    · injection h with h
      subst h
      exact mWithName_shape _ _ _ (by assumption)
    · exact absurd h (by simp)
  | cons c r ih =>
    intro prev s h
    unfold searchWith at h
    split at h
    · injection h with h
      subst h
      exact mWithName_shape _ _ _ (by assumption)
    · exact ih _ _ h

/-- Claim C6 (amended): whatever name `_extract_name_from_title` derives
consists of one word of at least two ASCII letters, or two such words joined
by whitespace — capitalization is not constrained, because `re.IGNORECASE`
extends to the `[A-Z]`/`[a-z]` classes. -/
theorem c6_title_name_shape (t s : Str) (h : extract_name_from_title t = some s) :
    NameShape s :=
  searchWith_shape t none s h

theorem c6_witness :
    extract_name_from_title (s2l "Meeting with Anna") = some (s2l "Anna") ∧
    NameShape (s2l "Anna") :=
  ⟨by decide, c6_title_name_shape (s2l "Meeting with Anna") (s2l "Anna") (by decide)⟩

/-- Counterexample to claim C6 as stated: the words after `with` in
`meeting with bob` are all lowercase, yet a contact name (`bob`) is derived
from the title and emitted as a contact. -/
theorem c6_lowercase_name_extracted :
    extract_name_from_title (s2l "meeting with bob") = some (s2l "bob") ∧
    (∀ c ∈ s2l "bob", c.isUpper = false) ∧
    (rule_based_extract (fun l => l) (s2l "meeting with bob") []).contacts.map
      (·.name) = [s2l "bob"] := by
  refine ⟨by decide, by decide, by decide⟩

/-- Claim C1 (code bug): at the failing input the extractor keeps the earlier,
shorter phrase `need to call` and drops the longer overlapping phrase
`need to call Bob` (which is only represented through the separate `call Bob`
match) — the opposite of the claimed longer-phrase-wins behaviour.  The
second conjunct records that the shorter accepted phrase is a
(case-insensitive) substring of the dropped longer one. -/
theorem c1_overlap_keeps_first :
    ((rule_based_extract (fun l => l) []
        (s2l "need to call. also need to call Bob.")).action_items.map
      (·.description)) = [s2l "need to call", s2l "call Bob"] ∧
    containsSub (lowerL (s2l "need to call")) (lowerL (s2l "need to call Bob")) = true ∧
    s2l "need to call Bob" ∉
      ((rule_based_extract (fun l => l) []
          (s2l "need to call. also need to call Bob.")).action_items.map
        (·.description)) :=
  ⟨by decide, by decide, by decide⟩

/-- Claim C9 (amended): for identical `(title, content)` inputs the fallback
extractor returns identical `action_items` and `reminders` lists (including
order) under any two set-iteration orders, and `contacts` lists that are
permutations of each other; the `contacts` order itself follows the runtime's
set iteration order, not the input. -/
theorem c9_deterministic_up_to_contact_order (ord1 ord2 : List Str → List Str)
    (h1 : ∀ l, List.Perm (ord1 l) l) (h2 : ∀ l, List.Perm (ord2 l) l)
    (title content : Str) :
    (rule_based_extract ord1 title content).action_items =
      (rule_based_extract ord2 title content).action_items ∧
    (rule_based_extract ord1 title content).reminders =
      (rule_based_extract ord2 title content).reminders ∧
    List.Perm (rule_based_extract ord1 title content).contacts
      (rule_based_extract ord2 title content).contacts := by
  refine ⟨rfl, rfl, ?_⟩
  exact List.Perm.map _ ((h1 _).trans (h2 _).symm)

theorem c9_witness :
    (rule_based_extract (fun l => l.reverse) [] (s2l "Call Anna. Call Bob.")).action_items =
      (rule_based_extract (fun l => l) [] (s2l "Call Anna. Call Bob.")).action_items ∧
    (rule_based_extract (fun l => l.reverse) [] (s2l "Call Anna. Call Bob.")).reminders =
      (rule_based_extract (fun l => l) [] (s2l "Call Anna. Call Bob.")).reminders ∧
    List.Perm (rule_based_extract (fun l => l.reverse) [] (s2l "Call Anna. Call Bob.")).contacts
      (rule_based_extract (fun l => l) [] (s2l "Call Anna. Call Bob.")).contacts :=
  c9_deterministic_up_to_contact_order _ _
    (fun l => List.reverse_perm l) (fun l => List.Perm.refl l) [] (s2l "Call Anna. Call Bob.")

/-- Counterexample to claim C9 as stated: two realisable set-iteration
orders (insertion order and its reverse are both permutations of the
collected-name set) give different results for the same input, so the
returned structure including list order is not determined by `(title,
content)` alone. -/
theorem c9_contact_order_not_input_determined :
    rule_based_extract (fun l => l.reverse) [] (s2l "Call Anna. Call Bob.") ≠
    rule_based_extract (fun l => l) [] (s2l "Call Anna. Call Bob.") := by decide

/-- Claim C5: `extract_from_note` never propagates an extraction failure.
With the guarded AI block modelled as an oracle, a missing credential or any
exception in the AI path yields exactly the rule-based extraction; the
result is always either the fallback or a successful AI result, and the
orchestrator always proceeds to `_save_extractions`. -/
theorem c5_extraction_failures_fall_back (apiKey : Str) (ai : AIOutcome)
    (ord : List Str → List Str) (title content : Str) :
    ((apiKey = [] ∨ ai = AIOutcome.exc) →
      extract_from_note_data apiKey ai ord title content =
        rule_based_extract ord title content) ∧
    (extract_from_note_data apiKey ai ord title content =
        rule_based_extract ord title content ∨
      (apiKey ≠ [] ∧ ∃ d, ai = AIOutcome.ok d ∧
        extract_from_note_data apiKey ai ord title content = d)) ∧
    (∀ (db : DB) (nid : Nat),
      extract_from_note apiKey ai ord db nid title content =
        save_extractions db nid (extract_from_note_data apiKey ai ord title content)) := by
  refine ⟨?_, ?_, fun db nid => rfl⟩
  · rintro (hk | hai)
    · subst hk; rfl
    · subst hai
      have hnone : aiPath apiKey AIOutcome.exc = none := by
        unfold aiPath; split <;> rfl
      unfold extract_from_note_data
      rw [hnone]
  · cases hai : ai with
    | exc =>
      left
      have hnone : aiPath apiKey AIOutcome.exc = none := by
        unfold aiPath; split <;> rfl
      unfold extract_from_note_data
      rw [hnone]
    | ok d =>
      by_cases hk : apiKey = []
      · left; subst hk; rfl
      · right
        refine ⟨hk, d, rfl, ?_⟩
        have hsome : aiPath apiKey (AIOutcome.ok d) = some d := by
          unfold aiPath
          have : apiKey.isEmpty = false := by
            cases apiKey with
            | nil => exact absurd rfl hk
            | cons c r => rfl
          rw [this]
          rfl
        unfold extract_from_note_data
        rw [hsome]

theorem c5_witness :
    extract_from_note_data (s2l "k") AIOutcome.exc (fun l => l) [] [] =
      rule_based_extract (fun l => l) [] [] ∧
    extract_from_note (s2l "k") AIOutcome.exc (fun l => l) dbW 1 [] [] =
      save_extractions dbW 1
        (extract_from_note_data (s2l "k") AIOutcome.exc (fun l => l) [] []) :=
  ⟨(c5_extraction_failures_fall_back (s2l "k") AIOutcome.exc (fun l => l) [] []).1
      (Or.inr rfl),
   (c5_extraction_failures_fall_back (s2l "k") AIOutcome.exc (fun l => l) [] []).2.2 dbW 1⟩

/-- Claim C8: an upload whose content type is not an allowed image type gets
a 422 response containing "Unsupported file type" with zero calls to the
external service — for every payload size, so the type check precedes the
size check — and an allowed type above 5 MB gets the 422 size response with
zero service calls. -/
theorem c8_ocr_validation_order (ct : Str) (sz : Nat) (svc : OcrOutcome) :
    (ct ∉ ALLOWED_IMAGE_TYPES →
      ocr_image ct sz svc = ⟨422, ocrUnsupportedBody, 0⟩ ∧
      containsSub (s2l "Unsupported file type") ocrUnsupportedBody = true) ∧
    (ct ∈ ALLOWED_IMAGE_TYPES → sz > MAX_IMAGE_SIZE →
      ocr_image ct sz svc = ⟨422, ocrTooLargeBody, 0⟩) := by
  constructor
  · intro h
    have hc : ALLOWED_IMAGE_TYPES.contains ct = false := by
      show ALLOWED_IMAGE_TYPES.elem ct = false
      rw [List.elem_eq_mem]
      exact decide_eq_false h
    refine ⟨?_, by decide⟩
    unfold ocr_image
    rw [hc]
    rfl
  · intro h hsz
    have hc : ALLOWED_IMAGE_TYPES.contains ct = true := by
      show ALLOWED_IMAGE_TYPES.elem ct = true
      rw [List.elem_eq_mem]
      exact decide_eq_true h
    unfold ocr_image
    rw [hc]
    simp only [Bool.not_true, Bool.false_eq_true, if_false]
    rw [if_pos hsz]

theorem c8_witness :
    (ocr_image (s2l "application/pdf") (6 * 1024 * 1024) (OcrOutcome.ok []) =
        ⟨422, ocrUnsupportedBody, 0⟩ ∧
      containsSub (s2l "Unsupported file type") ocrUnsupportedBody = true) ∧
    ocr_image (s2l "image/png") (6 * 1024 * 1024) (OcrOutcome.ok []) =
      ⟨422, ocrTooLargeBody, 0⟩ :=
  ⟨(c8_ocr_validation_order (s2l "application/pdf") (6 * 1024 * 1024)
      (OcrOutcome.ok [])).1 (by decide),
   (c8_ocr_validation_order (s2l "image/png") (6 * 1024 * 1024)
      (OcrOutcome.ok [])).2 (by decide) (by decide)⟩

theorem forall2_map_self {α : Type} (R : α → α → Prop) (f : α → α)
    (hf : ∀ a, R a (f a)) : ∀ l : List α, List.Forall₂ R l (l.map f)
  | [] => List.Forall₂.nil
  | a :: l => List.Forall₂.cons (hf a) (forall2_map_self R f hf l)

/-- Claim C10: toggling an action item twice restores its `is_completed`
flag (for the values 0/1 that the application ever stores); one toggle
preserves id, note reference, description and due date of every row and
leaves non-targeted rows (and all other tables) unchanged; toggling an id
with no matching row responds 404 and leaves the store unchanged. -/
theorem c10_toggle_involution (db : DB) (aid : Nat) :
    ((∀ a ∈ db.action_items, a.id = aid →
        a.is_completed = 0 ∨ a.is_completed = 1) →
      (toggle_action (toggle_action db aid).db aid).db = db) ∧
    List.Forall₂ (fun (a b : ActionRow) =>
        b.id = a.id ∧ b.note_id = a.note_id ∧ b.description = a.description ∧
        b.due_date = a.due_date ∧ (a.id ≠ aid → b = a))
      db.action_items (toggle_action db aid).db.action_items ∧
    (toggle_action db aid).db.notes = db.notes ∧
    (toggle_action db aid).db.contacts = db.contacts ∧
    (toggle_action db aid).db.note_contacts = db.note_contacts ∧
    (toggle_action db aid).db.reminders = db.reminders ∧
    ((∀ a ∈ db.action_items, a.id ≠ aid) →
      (toggle_action db aid).status = 404 ∧ (toggle_action db aid).db = db) := by
  have hdb1 : (toggle_action db aid).db =
      { db with
        action_items := db.action_items.map (fun (a : ActionRow) =>
          if a.id == aid then { a with is_completed := sqliteNot a.is_completed }
          else a) } := by
    unfold toggle_action
    dsimp only
    split <;> (try split) <;> rfl
  refine ⟨?_, ?_, ?_, ?_, ?_, ?_, ?_⟩
  · intro hflag
    have hdb2 : (toggle_action (toggle_action db aid).db aid).db =
        { (toggle_action db aid).db with
          action_items := (toggle_action db aid).db.action_items.map
            (fun (a : ActionRow) =>
              if a.id == aid then { a with is_completed := sqliteNot a.is_completed }
              else a) } := by
      unfold toggle_action
      dsimp only
      split <;> (try split) <;> rfl
    rw [hdb2, hdb1]
    show { db with action_items := _ } = db
    have hlist : (db.action_items.map (fun (a : ActionRow) =>
        if a.id == aid then { a with is_completed := sqliteNot a.is_completed }
        else a)).map (fun (a : ActionRow) =>
        if a.id == aid then { a with is_completed := sqliteNot a.is_completed }
        else a) = db.action_items := by
      rw [List.map_map]
      have hcongr := List.map_congr_left (l := db.action_items)
        (f := (fun (a : ActionRow) =>
            if a.id == aid then { a with is_completed := sqliteNot a.is_completed }
            else a) ∘ (fun (a : ActionRow) =>
            if a.id == aid then { a with is_completed := sqliteNot a.is_completed }
            else a))
        (g := id) ?_
      · rw [hcongr, List.map_id]
      · intro a ha
        by_cases hid : a.id = aid
        · have hbeq : (a.id == aid) = true := beq_iff_eq.mpr hid
          have hx : sqliteNot (sqliteNot a.is_completed) = a.is_completed := by
            rcases hflag a ha hid with h0 | h1
            · rw [h0]; rfl
            · rw [h1]; rfl
          simp only [Function.comp_apply, hbeq, if_true]
          rw [hx]
          rfl
        · have hbeq : (a.id == aid) = false := beq_eq_false_iff_ne.mpr hid
          simp [hbeq, hid]
    rw [hlist]
  · rw [hdb1]
    refine forall2_map_self _ _ ?_ db.action_items
    intro a
    by_cases hid : a.id = aid
    · have hbeq : (a.id == aid) = true := beq_iff_eq.mpr hid
      simp [hbeq, hid]
    · have hbeq : (a.id == aid) = false := beq_eq_false_iff_ne.mpr hid
      simp [hbeq, hid]
  · rw [hdb1]
  · rw [hdb1]
  · rw [hdb1]
  · rw [hdb1]
  · intro hno
    have hmap : db.action_items.map (fun (a : ActionRow) =>
        if a.id == aid then { a with is_completed := sqliteNot a.is_completed }
        else a) = db.action_items := by
      have hcongr := List.map_congr_left (l := db.action_items)
        (f := fun (a : ActionRow) =>
            if a.id == aid then { a with is_completed := sqliteNot a.is_completed }
            else a)
        (g := id) ?_
      · rw [hcongr, List.map_id]
      · intro a ha
        have hbeq : (a.id == aid) = false := beq_eq_false_iff_ne.mpr (hno a ha)
        simp [hbeq, hno a ha]
    have hfind : db.action_items.find? (fun a => a.id == aid) = none := by
      rw [List.find?_eq_none]
      intro a ha
      simp [beq_eq_false_iff_ne.mpr (hno a ha)]
    have hdbid : (toggle_action db aid).db = db := by
      rw [hdb1, hmap]
    refine ⟨?_, hdbid⟩
    unfold toggle_action
    dsimp only
    rw [hmap, hfind]

theorem c10_witness :
    (toggle_action (toggle_action dbW 1).db 1).db = dbW ∧
    (toggle_action dbW 99).status = 404 ∧ (toggle_action dbW 99).db = dbW :=
  ⟨(c10_toggle_involution dbW 1).1 (by decide),
   ((c10_toggle_involution dbW 99).2.2.2.2.2.2 (by decide)).1,
   ((c10_toggle_involution dbW 99).2.2.2.2.2.2 (by decide)).2⟩

theorem orphanFold_eq : ∀ (os : List Nat) (d : DB),
    os.foldl deleteContactCascade d =
      { d with
        contacts := d.contacts.filter (fun c => !(os.contains c.id)),
        reminders := d.reminders.filter (fun r => !(os.contains r.contact_id)),
        note_contacts := d.note_contacts.filter (fun l => !(os.contains l.contact_id)) }
  | [], d => by
    simp only [List.foldl_nil, List.contains_nil, Bool.not_false, List.filter_true]
  | o :: rest, d => by
    rw [List.foldl_cons, orphanFold_eq rest (deleteContactCascade d o)]
    unfold deleteContactCascade
    dsimp only
    congr 1
    · rw [List.filter_filter]
      apply List.filter_congr
      intro c _
      simp only [List.contains_cons, Bool.not_or, bne]
      rw [Bool.and_comm]
    · rw [List.filter_filter]
      apply List.filter_congr
      intro l _
      simp only [List.contains_cons, Bool.not_or, bne]
      rw [Bool.and_comm]
    · rw [List.filter_filter]
      apply List.filter_congr
      intro r _
      simp only [List.contains_cons, Bool.not_or, bne]
      rw [Bool.and_comm]

theorem mem_orphanContactIds (db : DB) (nid cid : Nat) :
    cid ∈ orphanContactIds db nid ↔ ExclusivelyLinked db nid cid := by
  unfold orphanContactIds ExclusivelyLinked
  simp only [List.mem_map, List.mem_filter, Bool.and_eq_true, beq_iff_eq,
    Bool.not_eq_true', List.any_eq_false, bne_iff_ne, not_exists, not_and]
  constructor
  · rintro ⟨a, ⟨ha, hnid, hall⟩, hcid⟩
    exact ⟨⟨a, ha, hnid, hcid⟩, fun x hx hc => hall x hx (hc.trans hcid.symm)⟩
  · rintro ⟨⟨l, hl, hnid, hcid⟩, hall⟩
    exact ⟨l, ⟨hl, hnid, fun x hx hc => hall x hx (hc.trans hcid)⟩, hcid⟩

theorem orphan_contains_eq_decide (db : DB) (nid : Nat) : ∀ x : Nat,
    (orphanContactIds db nid).contains x = decide (ExclusivelyLinked db nid x) := by
  intro x
  by_cases hx : ExclusivelyLinked db nid x
  · rw [decide_eq_true hx]
    exact List.elem_eq_true_of_mem ((mem_orphanContactIds db nid x).mpr hx)
  · rw [decide_eq_false hx, ← Bool.not_eq_true]
    intro hc
    exact hx ((mem_orphanContactIds db nid x).mp (List.mem_of_elem_eq_true hc))

/-- Claim C3: deleting note `nid` removes exactly the contacts linked
exclusively to it — and, by the contact cascade, exactly their reminders —
while the note row's own cascade removes its action items and links but
never a contact row; contacts linked to other notes survive together with
their reminders. -/
theorem c3_delete_note_exact_orphans (db : DB) (nid : Nat) :
    (delete_note db nid).contacts =
      db.contacts.filter (fun c => !(decide (ExclusivelyLinked db nid c.id))) ∧
    (delete_note db nid).reminders =
      db.reminders.filter
        (fun r => !(decide (ExclusivelyLinked db nid r.contact_id))) ∧
    (delete_note db nid).notes = db.notes.filter (fun n => n.id != nid) ∧
    (delete_note db nid).action_items =
      db.action_items.filter (fun a => a.note_id != nid) ∧
    (delete_note db nid).note_contacts =
      db.note_contacts.filter (fun l =>
        l.note_id != nid && !(decide (ExclusivelyLinked db nid l.contact_id))) := by
  have heq : delete_note db nid =
      { db with
        notes := db.notes.filter (fun n => n.id != nid),
        action_items := db.action_items.filter (fun a => a.note_id != nid),
        note_contacts := (db.note_contacts.filter (fun l => l.note_id != nid)).filter
          (fun l => !((orphanContactIds db nid).contains l.contact_id)),
        contacts := db.contacts.filter
          (fun c => !((orphanContactIds db nid).contains c.id)),
        reminders := db.reminders.filter
          (fun r => !((orphanContactIds db nid).contains r.contact_id)) } := by
    unfold delete_note
    dsimp only
    rw [orphanFold_eq]
  refine ⟨?_, ?_, ?_, ?_, ?_⟩
  · rw [heq]
    exact List.filter_congr (fun x _ => by rw [orphan_contains_eq_decide db nid x.id])
  · rw [heq]
    exact List.filter_congr (fun x _ => by
      rw [orphan_contains_eq_decide db nid x.contact_id])
  · rw [heq]
  · rw [heq]
  · rw [heq]
    show (db.note_contacts.filter _).filter _ = _
    rw [List.filter_filter]
    exact List.filter_congr (fun x _ => by
      rw [orphan_contains_eq_decide db nid x.contact_id, Bool.and_comm])

theorem remCleanupFold_eq : ∀ (cids : List Nat) (nid : Nat) (d : DB),
    cids.foldl (reminderCleanupStep nid) d =
      { d with reminders := d.reminders.filter (fun r =>
          !(cids.contains r.contact_id && !(otherNoteLinks d r.contact_id nid))) }
  | [], nid, d => by
    simp only [List.foldl_nil, List.contains_nil, Bool.false_and, Bool.not_false,
      List.filter_true]
  | cid :: rest, nid, d => by
    rw [List.foldl_cons]
    by_cases ho : otherNoteLinks d cid nid
    · have hstep : reminderCleanupStep nid d cid = d := by
        unfold reminderCleanupStep; rw [if_pos ho]
      rw [hstep, remCleanupFold_eq rest nid d]
      congr 1
      apply List.filter_congr
      intro r _
      by_cases hc : r.contact_id = cid
      · simp [List.contains_cons, hc, ho]
      · simp [List.contains_cons, hc]
    · have hstep : reminderCleanupStep nid d cid =
          { d with reminders := d.reminders.filter (fun r => r.contact_id != cid) } := by
        unfold reminderCleanupStep; rw [if_neg ho]
      rw [hstep, remCleanupFold_eq rest nid _]
      congr 1
      dsimp only
      rw [List.filter_filter]
      apply List.filter_congr
      intro r _
      by_cases hc : r.contact_id = cid
      · simp [List.contains_cons, hc, ho]
      · simp [List.contains_cons, hc, otherNoteLinks]

theorem keepsRows_refl (l : List ContactRow) : KeepsRows l l :=
  fun r hr => ⟨r, hr, rfl, rfl⟩

theorem keepsRows_trans {l1 l2 l3 : List ContactRow}
    (h12 : KeepsRows l1 l2) (h23 : KeepsRows l2 l3) : KeepsRows l1 l3 := by
  intro r hr
  obtain ⟨r2, hr2, hid2, hn2⟩ := h12 r hr
  obtain ⟨r3, hr3, hid3, hn3⟩ := h23 r2 hr2
  exact ⟨r3, hr3, hid3.trans hid2, hn3.trans hn2⟩

theorem keepsRows_map (l : List ContactRow) (f : ContactRow → ContactRow)
    (hf : ∀ r, (f r).id = r.id ∧ (f r).name = r.name) :
    KeepsRows l (l.map f) :=
  fun r hr => ⟨f r, List.mem_map_of_mem f hr, (hf r).1, (hf r).2⟩

theorem keepsRows_append (l t : List ContactRow) : KeepsRows l (l ++ t) :=
  fun r hr => ⟨r, List.mem_append_left t hr, rfl, rfl⟩

theorem fillPhone_keepsRows (db : DB) (cid : Nat) (v : Str) :
    KeepsRows db.contacts (fillPhone db cid v).contacts := by
  unfold fillPhone
  refine keepsRows_map _ _ ?_
  intro r
  split <;> exact ⟨rfl, rfl⟩

theorem fillEmail_keepsRows (db : DB) (cid : Nat) (v : Str) :
    KeepsRows db.contacts (fillEmail db cid v).contacts := by
  unfold fillEmail
  refine keepsRows_map _ _ ?_
  intro r
  split <;> exact ⟨rfl, rfl⟩

theorem insertLink_contacts (db : DB) (nid cid : Nat) :
    (insertLink db nid cid).contacts = db.contacts := by
  unfold insertLink; split <;> rfl

theorem upsertContact_keepsRows (nid : Nat) (st : DB × List (Str × Nat))
    (c : ContactC) :
    KeepsRows st.1.contacts (upsertContact nid st c).1.contacts := by
  unfold upsertContact
  dsimp only
  split
  · rw [insertLink_contacts]
    split
    · split
      · exact keepsRows_trans (fillPhone_keepsRows _ _ _) (fillEmail_keepsRows _ _ _)
      · exact fillEmail_keepsRows _ _ _
    · split
      · exact fillPhone_keepsRows _ _ _
      · exact keepsRows_refl _
  · rw [insertLink_contacts]
    exact keepsRows_append _ _

theorem actionFold_eq (nid : Nat) : ∀ (items : List ActionItemC) (db : DB),
    items.foldl (fun d it => insertActionRow d nid it) db =
      { db with
        action_items := db.action_items ++ mkActionRows nid db.next_action_id items,
        next_action_id := db.next_action_id + items.length }
  | [], db => by simp [mkActionRows]
  | it :: rest, db => by
    rw [List.foldl_cons, actionFold_eq nid rest _]
    unfold insertActionRow
    dsimp only
    congr 1
    · rw [List.append_assoc]
      rfl
    · rw [List.length_cons]
      omega

theorem mkActionRows_descriptions (nid : Nat) : ∀ (k : Nat) (items : List ActionItemC),
    (mkActionRows nid k items).map (·.description) = items.map (·.description)
  | _, [] => rfl
  | k, it :: rest => by
    unfold mkActionRows
    rw [List.map_cons, List.map_cons, mkActionRows_descriptions nid (k + 1) rest]

theorem mkActionRows_note_id (nid : Nat) : ∀ (k : Nat) (items : List ActionItemC),
    ∀ r ∈ mkActionRows nid k items, r.note_id = nid
  | _, [], r, hr => absurd hr (by simp [mkActionRows])
  | k, it :: rest, r, hr => by
    unfold mkActionRows at hr
    rcases List.mem_cons.mp hr with h | h
    · rw [h]
    · exact mkActionRows_note_id nid (k + 1) rest r h

theorem upsertContact_frame (nid : Nat) (st : DB × List (Str × Nat)) (c : ContactC) :
    (upsertContact nid st c).1.notes = st.1.notes ∧
    (upsertContact nid st c).1.action_items = st.1.action_items ∧
    (upsertContact nid st c).1.reminders = st.1.reminders ∧
    (upsertContact nid st c).1.next_action_id = st.1.next_action_id ∧
    (upsertContact nid st c).1.next_reminder_id = st.1.next_reminder_id := by
  unfold upsertContact insertLink fillPhone fillEmail
  dsimp only
  split <;> (try split) <;> (try split) <;> (try split) <;>
    exact ⟨rfl, rfl, rfl, rfl, rfl⟩

theorem contactFold_frame (nid : Nat) : ∀ (cs : List ContactC) (st : DB × List (Str × Nat)),
    ((cs.foldl (upsertContact nid) st).1.notes = st.1.notes ∧
     (cs.foldl (upsertContact nid) st).1.action_items = st.1.action_items ∧
     (cs.foldl (upsertContact nid) st).1.reminders = st.1.reminders ∧
     (cs.foldl (upsertContact nid) st).1.next_action_id = st.1.next_action_id ∧
     (cs.foldl (upsertContact nid) st).1.next_reminder_id = st.1.next_reminder_id)
  | [], st => ⟨rfl, rfl, rfl, rfl, rfl⟩
  | c :: rest, st => by
    rw [List.foldl_cons]
    obtain ⟨h1, h2, h3, h4, h5⟩ := contactFold_frame nid rest (upsertContact nid st c)
    obtain ⟨g1, g2, g3, g4, g5⟩ := upsertContact_frame nid st c
    exact ⟨h1.trans g1, h2.trans g2, h3.trans g3, h4.trans g4, h5.trans g5⟩

theorem contactFold_keepsRows (nid : Nat) : ∀ (cs : List ContactC) (st : DB × List (Str × Nat)),
    KeepsRows st.1.contacts ((cs.foldl (upsertContact nid) st).1).contacts
  | [], st => keepsRows_refl _
  | c :: rest, st => by
    rw [List.foldl_cons]
    exact keepsRows_trans (upsertContact_keepsRows nid st c)
      (contactFold_keepsRows nid rest (upsertContact nid st c))

theorem saveReminder_frame (cmap : List (Str × Nat)) (db : DB) (r : ReminderC) :
    (saveReminder cmap db r).notes = db.notes ∧
    (saveReminder cmap db r).contacts = db.contacts ∧
    (saveReminder cmap db r).action_items = db.action_items ∧
    (saveReminder cmap db r).note_contacts = db.note_contacts ∧
    (saveReminder cmap db r).next_contact_id = db.next_contact_id ∧
    (saveReminder cmap db r).next_action_id = db.next_action_id := by
  unfold saveReminder
  dsimp only
  split <;> (try split) <;> exact ⟨rfl, rfl, rfl, rfl, rfl, rfl⟩

theorem reminderFold_frame (cmap : List (Str × Nat)) : ∀ (rs : List ReminderC) (db : DB),
    ((rs.foldl (saveReminder cmap) db).notes = db.notes ∧
     (rs.foldl (saveReminder cmap) db).contacts = db.contacts ∧
     (rs.foldl (saveReminder cmap) db).action_items = db.action_items ∧
     (rs.foldl (saveReminder cmap) db).note_contacts = db.note_contacts ∧
     (rs.foldl (saveReminder cmap) db).next_contact_id = db.next_contact_id ∧
     (rs.foldl (saveReminder cmap) db).next_action_id = db.next_action_id)
  | [], db => ⟨rfl, rfl, rfl, rfl, rfl, rfl⟩
  | r :: rest, db => by
    rw [List.foldl_cons]
    obtain ⟨h1, h2, h3, h4, h5, h6⟩ := reminderFold_frame cmap rest (saveReminder cmap db r)
    obtain ⟨g1, g2, g3, g4, g5, g6⟩ := saveReminder_frame cmap db r
    exact ⟨h1.trans g1, h2.trans g2, h3.trans g3, h4.trans g4, h5.trans g5, h6.trans g6⟩

theorem save_extractions_action_items (db : DB) (nid : Nat) (data : ExtractData) :
    (save_extractions db nid data).action_items =
      db.action_items ++ mkActionRows nid db.next_action_id data.action_items := by
  unfold save_extractions
  dsimp only
  rw [(reminderFold_frame _ data.reminders _).2.2.1,
    (contactFold_frame nid data.contacts _).2.1,
    actionFold_eq nid data.action_items db]

theorem save_extractions_keepsRows (db : DB) (nid : Nat) (data : ExtractData) :
    KeepsRows db.contacts (save_extractions db nid data).contacts := by
  unfold save_extractions
  dsimp only
  rw [(reminderFold_frame _ data.reminders _).2.1]
  have h1 : (data.action_items.foldl (fun d it => insertActionRow d nid it) db).contacts
      = db.contacts := by
    rw [actionFold_eq nid data.action_items db]
  have h2 := contactFold_keepsRows nid data.contacts
    (data.action_items.foldl (fun d it => insertActionRow d nid it) db, [])
  rw [h1] at h2
  exact h2

theorem update_note_cleanup_eq (db : DB) (nid : Nat) (title content now : Str) :
    update_note_cleanup db nid title content now =
      { db with
        notes := db.notes.map (fun (n : NoteRow) =>
          if n.id == nid then
            { n with title := title, content := content, updated_at := now }
          else n),
        action_items := db.action_items.filter (fun a => a.note_id != nid),
        reminders := db.reminders.filter (fun r =>
          !((linkedContactIds db nid).contains r.contact_id &&
            !(otherNoteLinks db r.contact_id nid))),
        note_contacts := db.note_contacts.filter (fun l => l.note_id != nid) } := by
  unfold update_note_cleanup
  dsimp only
  rw [remCleanupFold_eq]
  rfl

theorem mem_linkedContactIds (db : DB) (nid cid : Nat) :
    cid ∈ linkedContactIds db nid ↔
      ∃ l ∈ db.note_contacts, l.note_id = nid ∧ l.contact_id = cid := by
  unfold linkedContactIds
  simp only [List.mem_map, List.mem_filter, beq_iff_eq]
  constructor
  · rintro ⟨l, ⟨hl, hn⟩, hc⟩
    exact ⟨l, hl, hn, hc⟩
  · rintro ⟨l, hl, hn, hc⟩
    exact ⟨l, ⟨hl, hn⟩, hc⟩

theorem otherNoteLinks_iff (db : DB) (cid nid : Nat) :
    otherNoteLinks db cid nid = true ↔
      ∃ l ∈ db.note_contacts, l.contact_id = cid ∧ l.note_id ≠ nid := by
  unfold otherNoteLinks
  simp only [List.any_eq_true, Bool.and_eq_true, beq_iff_eq, bne_iff_ne]

/-- Claim C2: after the cleanup phase of `update_note`, note `nid` owns no
action items and no note-contact links, contact rows are untouched, and for
every contact that was linked to the note its reminders survive if and only
if some other note still links to it; after re-extraction the note's action
items are exactly those of the new extraction, and every original contact
row is still present (same id and name). -/
theorem c2_update_note_rederives (db : DB) (nid : Nat) (title content now : Str)
    (data : ExtractData) :
    (update_note_cleanup db nid title content now).action_items =
        db.action_items.filter (fun a => a.note_id != nid) ∧
    (update_note_cleanup db nid title content now).note_contacts =
        db.note_contacts.filter (fun l => l.note_id != nid) ∧
    (update_note_cleanup db nid title content now).contacts = db.contacts ∧
    (∀ cid, (∃ l ∈ db.note_contacts, l.note_id = nid ∧ l.contact_id = cid) →
      (((∃ l ∈ db.note_contacts, l.contact_id = cid ∧ l.note_id ≠ nid) →
          (update_note_cleanup db nid title content now).reminders.filter
              (fun r => r.contact_id == cid) =
            db.reminders.filter (fun r => r.contact_id == cid)) ∧
        (¬(∃ l ∈ db.note_contacts, l.contact_id = cid ∧ l.note_id ≠ nid) →
          (update_note_cleanup db nid title content now).reminders.filter
              (fun r => r.contact_id == cid) = []))) ∧
    KeepsRows db.contacts (update_note db nid title content now data).contacts ∧
    ((update_note db nid title content now data).action_items.filter
        (fun a => a.note_id == nid)).map (·.description) =
      data.action_items.map (·.description) := by
  have heq := update_note_cleanup_eq db nid title content now
  refine ⟨by rw [heq], by rw [heq], by rw [heq], ?_, ?_, ?_⟩
  · intro cid hlinked
    have hmem : (linkedContactIds db nid).contains cid = true :=
      List.elem_eq_true_of_mem ((mem_linkedContactIds db nid cid).mpr hlinked)
    constructor
    · intro hother
      have hob : otherNoteLinks db cid nid = true :=
        (otherNoteLinks_iff db cid nid).mpr hother
      rw [heq]
      show (db.reminders.filter _).filter _ = _
      rw [List.filter_filter]
      apply List.filter_congr
      intro r _
      by_cases hc : r.contact_id = cid
      · rw [hc]
        simp [hob]
      · simp [hc]
    · intro hother
      have hob : otherNoteLinks db cid nid = false := by
        rw [← Bool.not_eq_true]
        intro hx
        exact hother ((otherNoteLinks_iff db cid nid).mp hx)
      rw [heq]
      show (db.reminders.filter _).filter _ = _
      rw [List.filter_filter, List.filter_eq_nil_iff]
      intro r _
      by_cases hc : r.contact_id = cid
      · rw [hc]
        simp only [hob, Bool.not_false, Bool.and_true, hmem, Bool.not_true,
          Bool.false_eq_true, and_false, not_false_eq_true]
        simp
      · simp [hc]
  · unfold update_note
    have h := save_extractions_keepsRows
      (update_note_cleanup db nid title content now) nid data
    rw [heq] at h ⊢
    exact h
  · unfold update_note
    rw [save_extractions_action_items, List.filter_append, List.map_append]
    have hmid : ((update_note_cleanup db nid title content now).action_items.filter
        (fun a => a.note_id == nid)) = [] := by
      rw [heq]
      show (db.action_items.filter _).filter _ = _
      rw [List.filter_filter, List.filter_eq_nil_iff]
      intro a _
      simp only [bne, Bool.and_eq_true, beq_iff_eq, Bool.not_eq_true', beq_eq_false_iff_ne,
        ne_eq, not_and]
      intro h1 h2
      exact h2 h1
    rw [hmid]
    have hrows : (mkActionRows nid
          (update_note_cleanup db nid title content now).next_action_id
          data.action_items).filter (fun a => a.note_id == nid) =
        mkActionRows nid
          (update_note_cleanup db nid title content now).next_action_id
          data.action_items := by
      have := List.filter_congr (l := mkActionRows nid
          (update_note_cleanup db nid title content now).next_action_id
          data.action_items)
        (p := fun a => a.note_id == nid) (q := fun _ => true) ?_
      · rw [this, List.filter_true]
      · intro r hr
        exact beq_iff_eq.mpr (mkActionRows_note_id nid _ data.action_items r hr)
    rw [hrows, mkActionRows_descriptions]
    rfl

theorem c2_witness :
    ((update_note_cleanup dbW 1 (s2l "T") (s2l "C") (s2l "now")).reminders.filter
        (fun r => r.contact_id == 2) =
      dbW.reminders.filter (fun r => r.contact_id == 2)) ∧
    ((update_note_cleanup dbW 1 (s2l "T") (s2l "C") (s2l "now")).reminders.filter
        (fun r => r.contact_id == 1) = []) ∧
    ((update_note dbW 1 (s2l "T") (s2l "C") (s2l "now") dataW).action_items.filter
        (fun a => a.note_id == 1)).map (·.description) =
      dataW.action_items.map (·.description) :=
  ⟨((c2_update_note_rederives dbW 1 (s2l "T") (s2l "C") (s2l "now") dataW).2.2.2.1 2
      (by decide)).1 (by decide),
   ((c2_update_note_rederives dbW 1 (s2l "T") (s2l "C") (s2l "now") dataW).2.2.2.1 1
      (by decide)).2 (by decide),
   (c2_update_note_rederives dbW 1 (s2l "T") (s2l "C") (s2l "now") dataW).2.2.2.2.2⟩

theorem nodup_names_unique {l : List ContactRow}
    (hnd : (l.map (·.name)).Nodup) {a b : ContactRow}
    (ha : a ∈ l) (hb : b ∈ l) (h : a.name = b.name) : a = b :=
  List.inj_on_of_nodup_map hnd ha hb h

theorem map_ids_eq {l : List ContactRow} {f : ContactRow → ContactRow}
    (hf : ∀ r, (f r).id = r.id ∧ (f r).name = r.name) :
    (l.map f).map (·.id) = l.map (·.id) := by
  rw [List.map_map]
  exact List.map_congr_left (fun a _ => (hf a).1)

theorem map_names_eq {l : List ContactRow} {f : ContactRow → ContactRow}
    (hf : ∀ r, (f r).id = r.id ∧ (f r).name = r.name) :
    (l.map f).map (·.name) = l.map (·.name) := by
  rw [List.map_map]
  exact List.map_congr_left (fun a _ => (hf a).2)

theorem filter_name_count_map {l : List ContactRow} {f : ContactRow → ContactRow}
    (hf : ∀ r, (f r).id = r.id ∧ (f r).name = r.name) (nm : Str) :
    ((l.map f).filter (fun x => x.name == nm)).length =
      (l.filter (fun x => x.name == nm)).length := by
  rw [List.filter_map, List.length_map]
  exact congrArg List.length (List.filter_congr (fun x _ => by
    show ((f x).name == nm) = (x.name == nm)
    rw [(hf x).2]))

theorem filter_name_count_append {l : List ContactRow} {y : ContactRow} {nm : Str}
    (h : y.name ≠ nm) :
    ((l ++ [y]).filter (fun x => x.name == nm)).length =
      (l.filter (fun x => x.name == nm)).length := by
  rw [List.filter_append]
  have : [y].filter (fun x => x.name == nm) = [] := by
    simp [List.filter, beq_eq_false_iff_ne.mpr h]
  rw [this, List.append_nil]

theorem insertLink_frame (db : DB) (nid cid : Nat) :
    (insertLink db nid cid).contacts = db.contacts ∧
    (insertLink db nid cid).next_contact_id = db.next_contact_id := by
  unfold insertLink
  split <;> exact ⟨rfl, rfl⟩

theorem contactsWF_of_map (db : DB) (db2 : DB) (f : ContactRow → ContactRow)
    (hf : ∀ r, (f r).id = r.id ∧ (f r).name = r.name)
    (hc : db2.contacts = db.contacts.map f)
    (hn : db2.next_contact_id = db.next_contact_id)
    (hwf : ContactsWF db) : ContactsWF db2 := by
  obtain ⟨h1, h2, h3⟩ := hwf
  refine ⟨?_, ?_, ?_⟩
  · rw [hc, map_ids_eq hf]; exact h1
  · rw [hc, map_names_eq hf]; exact h2
  · intro x hx
    rw [hc] at hx
    obtain ⟨a, ha, rfl⟩ := List.mem_map.mp hx
    rw [(hf a).1, hn]
    exact h3 a ha

theorem phoneUpd_pres (cid : Nat) (v : Str) (x : ContactRow) :
    (phoneUpd cid v x).id = x.id ∧ (phoneUpd cid v x).name = x.name ∧
    (phoneUpd cid v x).email = x.email := by
  unfold phoneUpd
  split <;> exact ⟨rfl, rfl, rfl⟩

theorem emailUpd_pres (cid : Nat) (v : Str) (x : ContactRow) :
    (emailUpd cid v x).id = x.id ∧ (emailUpd cid v x).name = x.name ∧
    (emailUpd cid v x).phone = x.phone := by
  unfold emailUpd
  split <;> exact ⟨rfl, rfl, rfl⟩

theorem phone_if_eq (D : DB) (cid : Nat) (v : Str) :
    (if !v.isEmpty then fillPhone D cid v else D).contacts =
      D.contacts.map (phoneUpd cid v) := by
  by_cases hv : v = []
  · subst hv
    have h1 : ∀ a ∈ D.contacts, phoneUpd cid [] a = id a := by
      intro a _
      unfold phoneUpd
      rw [if_neg (fun h => h.2.2 rfl)]
      rfl
    rw [List.map_congr_left h1, List.map_id]
    rfl
  · have hne : v.isEmpty = false := List.isEmpty_eq_false.mpr hv
    rw [hne]
    simp only [Bool.not_false, if_true]
    unfold fillPhone
    dsimp only
    apply List.map_congr_left
    intro a _
    unfold phoneUpd
    by_cases h1 : a.id = cid <;> by_cases h2 : a.phone = [] <;>
      simp [h1, h2, hv]

theorem email_if_eq (D : DB) (cid : Nat) (v : Str) :
    (if !v.isEmpty then fillEmail D cid v else D).contacts =
      D.contacts.map (emailUpd cid v) := by
  by_cases hv : v = []
  · subst hv
    have h1 : ∀ a ∈ D.contacts, emailUpd cid [] a = id a := by
      intro a _
      unfold emailUpd
      rw [if_neg (fun h => h.2.2 rfl)]
      rfl
    rw [List.map_congr_left h1, List.map_id]
    rfl
  · have hne : v.isEmpty = false := List.isEmpty_eq_false.mpr hv
    rw [hne]
    simp only [Bool.not_false, if_true]
    unfold fillEmail
    dsimp only
    apply List.map_congr_left
    intro a _
    unfold emailUpd
    by_cases h1 : a.id = cid <;> by_cases h2 : a.email = [] <;>
      simp [h1, h2, hv]

theorem phone_if_next (D : DB) (cid : Nat) (v : Str) :
    (if !v.isEmpty then fillPhone D cid v else D).next_contact_id =
      D.next_contact_id := by
  split <;> rfl

theorem email_if_next (D : DB) (cid : Nat) (v : Str) :
    (if !v.isEmpty then fillEmail D cid v else D).next_contact_id =
      D.next_contact_id := by
  split <;> rfl

theorem upsertContact_step_inv (nid : Nat) (st : DB × List (Str × Nat))
    (c : ContactC) (r : ContactRow) (hwf : ContactsWF st.1)
    (hr : r ∈ st.1.contacts) :
    ContactsWF (upsertContact nid st c).1 ∧
    ∃ r1 ∈ (upsertContact nid st c).1.contacts,
      r1.id = r.id ∧ r1.name = r.name ∧
      r1.phone =
        (if r.phone = [] ∧ c.name = r.name ∧ c.phone ≠ [] then c.phone
         else r.phone) ∧
      r1.email =
        (if r.email = [] ∧ c.name = r.name ∧ c.email ≠ [] then c.email
         else r.email) ∧
      ((upsertContact nid st c).1.contacts.filter
          (fun x => x.name == r.name)).length =
        (st.1.contacts.filter (fun x => x.name == r.name)).length := by
  obtain ⟨hnidd, hnames, hbound⟩ := hwf
  rcases hfind : st.1.contacts.find? (fun x => x.name == c.name) with _ | r0
  · -- no contact with this name exists: a fresh row is appended
    have heq : upsertContact nid st c =
        (insertLink
          { st.1 with
            contacts := st.1.contacts ++ [⟨st.1.next_contact_id, c.name, c.phone, c.email⟩],
            next_contact_id := st.1.next_contact_id + 1 } nid st.1.next_contact_id,
         (c.name, st.1.next_contact_id) :: st.2) := by
      unfold upsertContact
      dsimp only
      rw [hfind]
    have hnone := List.find?_eq_none.mp hfind
    have hcn : c.name ≠ r.name := by
      intro h
      exact hnone r hr (by simp [h])
    have hcont : (upsertContact nid st c).1.contacts =
        st.1.contacts ++ [⟨st.1.next_contact_id, c.name, c.phone, c.email⟩] := by
      rw [heq]
      exact (insertLink_frame _ nid _).1
    have hnext : (upsertContact nid st c).1.next_contact_id =
        st.1.next_contact_id + 1 := by
      rw [heq]
      exact (insertLink_frame _ nid _).2
    refine ⟨⟨?_, ?_, ?_⟩, r, ?_, rfl, rfl, ?_, ?_, ?_⟩
    · rw [hcont, List.map_append]
      rw [List.nodup_append]
      refine ⟨hnidd, List.nodup_singleton _, ?_⟩
      intro x hx hx2
      simp only [List.map_cons, List.map_nil, List.mem_singleton] at hx2
      obtain ⟨a, ha, rfl⟩ := List.mem_map.mp hx
      have hlt := hbound a ha
      rw [hx2] at hlt
      exact lt_irrefl _ hlt
    · rw [hcont, List.map_append]
      rw [List.nodup_append]
      refine ⟨hnames, List.nodup_singleton _, ?_⟩
      intro x hx hx2
      simp only [List.map_cons, List.map_nil, List.mem_singleton] at hx2
      obtain ⟨a, ha, rfl⟩ := List.mem_map.mp hx
      exact hnone a ha (by simp [hx2])
    · intro x hx
      rw [hcont] at hx
      rw [hnext]
      rcases List.mem_append.mp hx with h | h
      · exact Nat.lt_trans (hbound x h) (Nat.lt_succ_self _)
      · simp only [List.mem_singleton] at h
        rw [h]
        exact Nat.lt_succ_self _
    · rw [hcont]
      exact List.mem_append_left _ hr
    · rw [if_neg (fun h => hcn h.2.1)]
    · rw [if_neg (fun h => hcn h.2.1)]
    · rw [hcont]
      exact filter_name_count_append hcn
  · -- a row named c.name already exists: only empty fields are filled
    have heq : upsertContact nid st c =
        (insertLink
          (if !c.email.isEmpty then
            fillEmail (if !c.phone.isEmpty then fillPhone st.1 r0.id c.phone else st.1)
              r0.id c.email
          else (if !c.phone.isEmpty then fillPhone st.1 r0.id c.phone else st.1))
          nid r0.id,
         (c.name, r0.id) :: st.2) := by
      unfold upsertContact
      dsimp only
      rw [hfind]
    have hr0mem : r0 ∈ st.1.contacts := List.mem_of_find?_eq_some hfind
    have hr0name : r0.name = c.name := by
      have hp0 := List.find?_some hfind
      simpa using hp0
    have hcont : (upsertContact nid st c).1.contacts =
        st.1.contacts.map (emailUpd r0.id c.email ∘ phoneUpd r0.id c.phone) := by
      rw [heq]
      show (insertLink _ nid r0.id).contacts = _
      rw [(insertLink_frame _ nid _).1, email_if_eq, phone_if_eq, List.map_map]
    have hnext : (upsertContact nid st c).1.next_contact_id =
        st.1.next_contact_id := by
      rw [heq]
      show (insertLink _ nid r0.id).next_contact_id = _
      rw [(insertLink_frame _ nid _).2, email_if_next, phone_if_next]
    have hpres : ∀ x : ContactRow,
        ((emailUpd r0.id c.email ∘ phoneUpd r0.id c.phone) x).id = x.id ∧
        ((emailUpd r0.id c.email ∘ phoneUpd r0.id c.phone) x).name = x.name := by
      intro x
      constructor
      · exact ((emailUpd_pres r0.id c.email _).1).trans (phoneUpd_pres r0.id c.phone x).1
      · exact ((emailUpd_pres r0.id c.email _).2.1).trans (phoneUpd_pres r0.id c.phone x).2.1
    refine ⟨contactsWF_of_map st.1 _ _ hpres hcont hnext ⟨hnidd, hnames, hbound⟩,
      (emailUpd r0.id c.email ∘ phoneUpd r0.id c.phone) r, ?_, (hpres r).1, (hpres r).2, ?_, ?_, ?_⟩
    · rw [hcont]
      exact List.mem_map_of_mem _ hr
    · -- phone field
      have hema : ((emailUpd r0.id c.email ∘ phoneUpd r0.id c.phone) r).phone =
          (phoneUpd r0.id c.phone r).phone :=
        (emailUpd_pres r0.id c.email _).2.2
      rw [hema]
      by_cases hcn : c.name = r.name
      · have hrr0 : r0 = r :=
          nodup_names_unique hnames hr0mem hr (hr0name.trans hcn)
        unfold phoneUpd
        rw [hrr0]
        by_cases h2 : r.phone = [] <;> by_cases h3 : c.phone = [] <;>
          simp [h2, h3, hcn]
      · have hner : r0 ≠ r := fun h => hcn ((h ▸ hr0name).symm)
        have hid : r.id ≠ r0.id := fun h =>
          hner (List.inj_on_of_nodup_map hnidd hr0mem hr h.symm)
        unfold phoneUpd
        rw [if_neg (fun h => hid h.1), if_neg (fun h => hcn h.2.1)]
    · -- email field
      have hyid : (phoneUpd r0.id c.phone r).id = r.id :=
        (phoneUpd_pres r0.id c.phone r).1
      have hyem : (phoneUpd r0.id c.phone r).email = r.email :=
        (phoneUpd_pres r0.id c.phone r).2.2
      show (emailUpd r0.id c.email (phoneUpd r0.id c.phone r)).email = _
      unfold emailUpd
      by_cases hcn : c.name = r.name
      · have hrr0 : r0 = r :=
          nodup_names_unique hnames hr0mem hr (hr0name.trans hcn)
        rw [hrr0] at hyid hyem ⊢
        by_cases h2 : r.email = [] <;> by_cases h3 : c.email = [] <;>
          simp [h2, h3, hcn, hyid, hyem]
      · have hner : r0 ≠ r := fun h => hcn ((h ▸ hr0name).symm)
        have hid : r.id ≠ r0.id := fun h =>
          hner (List.inj_on_of_nodup_map hnidd hr0mem hr h.symm)
        rw [if_neg (fun h => hid (hyid ▸ h.1)), if_neg (fun h => hcn h.2.1)]
        exact hyem
    · rw [hcont]
      exact filter_name_count_map hpres r.name

theorem contactFold_upsert_inv (nid : Nat) :
    ∀ (cs : List ContactC) (st : DB × List (Str × Nat)) (r : ContactRow),
      ContactsWF st.1 → r ∈ st.1.contacts →
      ContactsWF (cs.foldl (upsertContact nid) st).1 ∧
      ∃ r' ∈ (cs.foldl (upsertContact nid) st).1.contacts,
        r'.id = r.id ∧ r'.name = r.name ∧
        (r.phone ≠ [] → r'.phone = r.phone) ∧
        (r.email ≠ [] → r'.email = r.email) ∧
        ((r.phone = [] ∧ ∃ c ∈ cs, c.name = r.name ∧ c.phone ≠ []) →
          r'.phone ≠ []) ∧
        ((r.email = [] ∧ ∃ c ∈ cs, c.name = r.name ∧ c.email ≠ []) →
          r'.email ≠ []) ∧
        ((cs.foldl (upsertContact nid) st).1.contacts.filter
            (fun x => x.name == r.name)).length =
          (st.1.contacts.filter (fun x => x.name == r.name)).length
  | [], st, r, hwf, hr =>
    ⟨hwf, r, hr, rfl, rfl, fun _ => rfl, fun _ => rfl,
      fun h => absurd h.2 (by simp), fun h => absurd h.2 (by simp), rfl⟩
  | c :: rest, st, r, hwf, hr => by
    rw [List.foldl_cons]
    obtain ⟨hwf1, r1, hr1mem, hid1, hname1, hph1, hem1, hcount1⟩ :=
      upsertContact_step_inv nid st c r hwf hr
    obtain ⟨hwf2, r2, hr2mem, hid2, hname2, hphPres, hemPres, hphFill, hemFill,
      hcount2⟩ :=
      contactFold_upsert_inv nid rest (upsertContact nid st c) r1 hwf1 hr1mem
    refine ⟨hwf2, r2, hr2mem, hid2.trans hid1, hname2.trans hname1,
      ?_, ?_, ?_, ?_, ?_⟩
    · intro h
      have h1 : r1.phone = r.phone := by
        rw [hph1, if_neg (fun hx => h hx.1)]
      have h2 : r1.phone ≠ [] := by rw [h1]; exact h
      rw [hphPres h2, h1]
    · intro h
      have h1 : r1.email = r.email := by
        rw [hem1, if_neg (fun hx => h hx.1)]
      have h2 : r1.email ≠ [] := by rw [h1]; exact h
      rw [hemPres h2, h1]
    · rintro ⟨hempty, c', hc'mem, hc'name, hc'ph⟩
      rcases List.mem_cons.mp hc'mem with rfl | hmem
      · have h1 : r1.phone = c'.phone := by
          rw [hph1, if_pos ⟨hempty, hc'name, hc'ph⟩]
        have h2 : r1.phone ≠ [] := by rw [h1]; exact hc'ph
        rw [hphPres h2, h1]
        exact hc'ph
      · by_cases hr1p : r1.phone = []
        · exact hphFill ⟨hr1p, c', hmem, hc'name.trans hname1.symm, hc'ph⟩
        · rw [hphPres hr1p]
          exact hr1p
    · rintro ⟨hempty, c', hc'mem, hc'name, hc'em⟩
      rcases List.mem_cons.mp hc'mem with rfl | hmem
      · have h1 : r1.email = c'.email := by
          rw [hem1, if_pos ⟨hempty, hc'name, hc'em⟩]
        have h2 : r1.email ≠ [] := by rw [h1]; exact hc'em
        rw [hemPres h2, h1]
        exact hc'em
      · by_cases hr1e : r1.email = []
        · exact hemFill ⟨hr1e, c', hmem, hc'name.trans hname1.symm, hc'em⟩
        · rw [hemPres hr1e]
          exact hr1e
    · rw [hname1] at hcount2
      exact hcount2.trans hcount1

/-- Claim C7: under the schema invariants (unique contact ids and names,
ids below the autoincrement counter), saving an extraction never overwrites
a non-empty phone or email of an existing contact, fills an empty field when
some extracted contact with that name supplies a non-empty value, and never
creates a second row for an existing name. -/
theorem c7_contact_upsert_no_overwrite (db : DB) (nid : Nat)
    (data : ExtractData) (r : ContactRow) (hwf : ContactsWF db)
    (hr : r ∈ db.contacts) :
    ∃ r' ∈ (save_extractions db nid data).contacts,
      r'.id = r.id ∧ r'.name = r.name ∧
      (r.phone ≠ [] → r'.phone = r.phone) ∧
      (r.email ≠ [] → r'.email = r.email) ∧
      ((r.phone = [] ∧ ∃ c ∈ data.contacts, c.name = r.name ∧ c.phone ≠ []) →
        r'.phone ≠ []) ∧
      ((r.email = [] ∧ ∃ c ∈ data.contacts, c.name = r.name ∧ c.email ≠ []) →
        r'.email ≠ []) ∧
      ((save_extractions db nid data).contacts.filter
          (fun x => x.name == r.name)).length =
        (db.contacts.filter (fun x => x.name == r.name)).length := by
  have hact := actionFold_eq nid data.action_items db
  have hwfA : ContactsWF
      (data.action_items.foldl (fun d it => insertActionRow d nid it) db) := by
    rw [hact]
    exact hwf
  have hrA : r ∈
      (data.action_items.foldl (fun d it => insertActionRow d nid it) db).contacts := by
    rw [hact]
    exact hr
  obtain ⟨_, r', hmem, hid, hname, hphp, hemp, hphf, hemf, hcount⟩ :=
    contactFold_upsert_inv nid data.contacts
      (data.action_items.foldl (fun d it => insertActionRow d nid it) db, []) r
      hwfA hrA
  have hsc : (save_extractions db nid data).contacts =
      ((data.contacts.foldl (upsertContact nid)
        (data.action_items.foldl (fun d it => insertActionRow d nid it) db, [])).1).contacts := by
    unfold save_extractions
    dsimp only
    rw [(reminderFold_frame _ data.reminders _).2.1]
  rw [hsc]
  refine ⟨r', hmem, hid, hname, hphp, hemp, hphf, hemf, ?_⟩
  rw [hcount, hact]

theorem c7_witness :
    ∃ r' ∈ (save_extractions dbW 1 dataW).contacts,
      r'.id = (ContactRow.mk 2 (s2l "Bob") (s2l "555") []).id ∧
      r'.name = (ContactRow.mk 2 (s2l "Bob") (s2l "555") []).name ∧
      ((ContactRow.mk 2 (s2l "Bob") (s2l "555") []).phone ≠ [] →
        r'.phone = (ContactRow.mk 2 (s2l "Bob") (s2l "555") []).phone) ∧
      ((ContactRow.mk 2 (s2l "Bob") (s2l "555") []).email ≠ [] →
        r'.email = (ContactRow.mk 2 (s2l "Bob") (s2l "555") []).email) ∧
      (((ContactRow.mk 2 (s2l "Bob") (s2l "555") []).phone = [] ∧
          ∃ c ∈ dataW.contacts,
            c.name = (ContactRow.mk 2 (s2l "Bob") (s2l "555") []).name ∧
            c.phone ≠ []) →
        r'.phone ≠ []) ∧
      (((ContactRow.mk 2 (s2l "Bob") (s2l "555") []).email = [] ∧
          ∃ c ∈ dataW.contacts,
            c.name = (ContactRow.mk 2 (s2l "Bob") (s2l "555") []).name ∧
            c.email ≠ []) →
        r'.email ≠ []) ∧
      ((save_extractions dbW 1 dataW).contacts.filter
          (fun x => x.name == (ContactRow.mk 2 (s2l "Bob") (s2l "555") []).name)).length =
        (dbW.contacts.filter
          (fun x => x.name == (ContactRow.mk 2 (s2l "Bob") (s2l "555") []).name)).length :=
  c7_contact_upsert_no_overwrite dbW 1 dataW
    (ContactRow.mk 2 (s2l "Bob") (s2l "555") []) (by decide) (by decide)

theorem saveActionsT_ok (fail : Nat → Bool) (nid : Nat) :
    ∀ (items : List ActionItemC) (db : DB) (k : Nat) (db' : DB) (k' : Nat),
      saveActionsT fail nid items db k = .ok (db', k') →
      db' = items.foldl (fun d it => insertActionRow d nid it) db
  | [], db, k, db', k', h => by
    unfold saveActionsT at h
    simp only [Except.ok.injEq, Prod.mk.injEq] at h
    rw [List.foldl_nil, ← h.1]
  | it :: rest, db, k, db', k', h => by
    unfold saveActionsT tick at h
    split at h
    · exact absurd h (by simp)
    · rw [List.foldl_cons]
      exact saveActionsT_ok fail nid rest (insertActionRow db nid it) _ db' k' h

theorem upsertContactT_ok (fail : Nat → Bool) (nid : Nat) (c : ContactC)
    (db : DB) (cmap : List (Str × Nat)) (k : Nat) (db' : DB)
    (cmap' : List (Str × Nat)) (k' : Nat)
    (h : upsertContactT fail nid c db cmap k = .ok (db', cmap', k')) :
    db' = (upsertContact nid (db, cmap) c).1 ∧
    cmap' = (upsertContact nid (db, cmap) c).2 := by
  by_cases hf0 : fail k = true
  · simp [upsertContactT, tick, hf0] at h
  · rw [Bool.not_eq_true] at hf0
    rcases hfind : db.contacts.find? (fun r => r.name == c.name) with _ | r0
    · by_cases hf1 : fail (k + 1) = true
      · simp [upsertContactT, tick, hf0, hf1, hfind] at h
      · rw [Bool.not_eq_true] at hf1
        by_cases hf2 : fail (k + 2) = true
        · simp [upsertContactT, tick, hf0, hf1, hf2, hfind] at h
        · rw [Bool.not_eq_true] at hf2
          simp only [upsertContactT, tick, hf0, hf1, hf2, hfind,
            Bool.false_eq_true, if_false, Except.ok.injEq, Prod.mk.injEq] at h
          simp only [upsertContact, hfind]
          exact ⟨h.1.symm, h.2.1.symm⟩
    · by_cases hp : c.phone.isEmpty = true
      · by_cases he : c.email.isEmpty = true
        · by_cases hf1 : fail (k + 1) = true
          · simp [upsertContactT, tick, hf0, hf1, hfind, hp, he] at h
          · rw [Bool.not_eq_true] at hf1
            simp only [upsertContactT, tick, hf0, hf1, hfind, hp, he,
              Bool.not_true, Bool.false_eq_true, if_false, Except.ok.injEq,
              Prod.mk.injEq] at h
            simp only [upsertContact, hfind, hp, he, Bool.not_true,
              Bool.false_eq_true, if_false]
            exact ⟨h.1.symm, h.2.1.symm⟩
        · rw [Bool.not_eq_true] at he
          by_cases hf1 : fail (k + 1) = true
          · simp [upsertContactT, tick, hf0, hf1, hfind, hp, he] at h
          · rw [Bool.not_eq_true] at hf1
            by_cases hf2 : fail (k + 2) = true
            · simp [upsertContactT, tick, hf0, hf1, hf2, hfind, hp, he] at h
            · rw [Bool.not_eq_true] at hf2
              simp only [upsertContactT, tick, hf0, hf1, hf2, hfind, hp, he,
                Bool.not_true, Bool.not_false, Bool.false_eq_true, if_false,
                if_true, Except.ok.injEq, Prod.mk.injEq] at h
              simp only [upsertContact, hfind, hp, he, Bool.not_true,
                Bool.not_false, Bool.false_eq_true, if_false, if_true]
              exact ⟨h.1.symm, h.2.1.symm⟩
      · rw [Bool.not_eq_true] at hp
        by_cases hf1 : fail (k + 1) = true
        · simp [upsertContactT, tick, hf0, hf1, hfind, hp] at h
        · rw [Bool.not_eq_true] at hf1
          by_cases he : c.email.isEmpty = true
          · by_cases hf2 : fail (k + 2) = true
            · simp [upsertContactT, tick, hf0, hf1, hf2, hfind, hp, he] at h
            · rw [Bool.not_eq_true] at hf2
              simp only [upsertContactT, tick, hf0, hf1, hf2, hfind, hp, he,
                Bool.not_true, Bool.not_false, Bool.false_eq_true, if_false,
                if_true, Except.ok.injEq, Prod.mk.injEq] at h
              simp only [upsertContact, hfind, hp, he, Bool.not_true,
                Bool.not_false, Bool.false_eq_true, if_false, if_true]
              exact ⟨h.1.symm, h.2.1.symm⟩
          · rw [Bool.not_eq_true] at he
            by_cases hf2 : fail (k + 2) = true
            · simp [upsertContactT, tick, hf0, hf1, hf2, hfind, hp, he] at h
            · rw [Bool.not_eq_true] at hf2
              by_cases hf3 : fail (k + 3) = true
              · simp [upsertContactT, tick, hf0, hf1, hf2, hf3, hfind, hp, he] at h
              · rw [Bool.not_eq_true] at hf3
                simp only [upsertContactT, tick, hf0, hf1, hf2, hf3, hfind, hp,
                  he, Bool.not_true, Bool.not_false, Bool.false_eq_true,
                  if_false, if_true, Except.ok.injEq, Prod.mk.injEq] at h
                simp only [upsertContact, hfind, hp, he, Bool.not_true,
                  Bool.not_false, Bool.false_eq_true, if_false, if_true]
                exact ⟨h.1.symm, h.2.1.symm⟩

theorem saveContactsT_ok (fail : Nat → Bool) (nid : Nat) :
    ∀ (cs : List ContactC) (db : DB) (cmap : List (Str × Nat)) (k : Nat)
      (db' : DB) (cmap' : List (Str × Nat)) (k' : Nat),
      saveContactsT fail nid cs db cmap k = .ok (db', cmap', k') →
      (db', cmap') = cs.foldl (upsertContact nid) (db, cmap)
  | [], db, cmap, k, db', cmap', k', h => by
    unfold saveContactsT at h
    simp only [Except.ok.injEq, Prod.mk.injEq] at h
    rw [List.foldl_nil, ← h.1, ← h.2.1]
  | c :: rest, db, cmap, k, db', cmap', k', h => by
    unfold saveContactsT at h
    split at h
    · exact absurd h (by simp)
    · rename_i db1 cmap1 k1 heq
      obtain ⟨hd, hc⟩ := upsertContactT_ok fail nid c db cmap k db1 cmap1 k1 heq
      rw [List.foldl_cons]
      have hst : (db1, cmap1) = upsertContact nid (db, cmap) c := by
        rw [hd, hc]
      rw [← hst]
      exact saveContactsT_ok fail nid rest db1 cmap1 _ db' cmap' k' h

theorem saveReminderT_ok (fail : Nat → Bool) (cmap : List (Str × Nat))
    (r : ReminderC) (db : DB) (k : Nat) (db' : DB) (k' : Nat)
    (h : saveReminderT fail cmap r db k = .ok (db', k')) :
    db' = saveReminder cmap db r := by
  rcases hc0 : lookupMap cmap r.contact_name with _ | c0
  · by_cases hf0 : fail k = true
    · simp [saveReminderT, tick, hc0, hf0] at h
    · rw [Bool.not_eq_true] at hf0
      rcases hfind : db.contacts.find? (fun x => x.name == r.contact_name) with _ | row
      · simp [saveReminderT, tick, hc0, hfind, hf0] at h
        simp [saveReminder, hc0, hfind]
        exact h.1.symm
      · by_cases hz : row.id = 0
        · simp [saveReminderT, tick, hc0, hfind, hf0, hz] at h
          simp [saveReminder, hc0, hfind, hz]
          exact h.1.symm
        · by_cases hf1 : fail (k + 1) = true
          · simp [saveReminderT, tick, hc0, hfind, hf0, hf1, hz] at h
          · rw [Bool.not_eq_true] at hf1
            simp [saveReminderT, tick, hc0, hfind, hf0, hf1, hz] at h
            simp [saveReminder, hc0, hfind, hz]
            exact h.1.symm
  · by_cases hz0 : c0 = 0
    · subst hz0
      by_cases hf0 : fail k = true
      · simp [saveReminderT, tick, hc0, hf0] at h
      · rw [Bool.not_eq_true] at hf0
        rcases hfind : db.contacts.find? (fun x => x.name == r.contact_name) with _ | row
        · simp [saveReminderT, tick, hc0, hfind, hf0] at h
          simp [saveReminder, hc0, hfind]
          exact h.1.symm
        · by_cases hz : row.id = 0
          · simp [saveReminderT, tick, hc0, hfind, hf0, hz] at h
            simp [saveReminder, hc0, hfind, hz]
            exact h.1.symm
          · by_cases hf1 : fail (k + 1) = true
            · simp [saveReminderT, tick, hc0, hfind, hf0, hf1, hz] at h
            · rw [Bool.not_eq_true] at hf1
              simp [saveReminderT, tick, hc0, hfind, hf0, hf1, hz] at h
              simp [saveReminder, hc0, hfind, hz]
              exact h.1.symm
    · by_cases hf0 : fail k = true
      · simp [saveReminderT, tick, hc0, hf0, hz0] at h
      · rw [Bool.not_eq_true] at hf0
        simp [saveReminderT, tick, hc0, hf0, hz0] at h
        simp [saveReminder, hc0, hz0]
        exact h.1.symm

theorem saveRemindersT_ok (fail : Nat → Bool) (cmap : List (Str × Nat)) :
    ∀ (rs : List ReminderC) (db : DB) (k : Nat) (db' : DB) (k' : Nat),
      saveRemindersT fail cmap rs db k = .ok (db', k') →
      db' = rs.foldl (saveReminder cmap) db
  | [], db, k, db', k', h => by
    unfold saveRemindersT at h
    simp only [Except.ok.injEq, Prod.mk.injEq] at h
    rw [List.foldl_nil, ← h.1]
  | r :: rest, db, k, db', k', h => by
    unfold saveRemindersT at h
    split at h
    · exact absurd h (by simp)
    · rename_i db1 k1 heq
      rw [List.foldl_cons, ← saveReminderT_ok fail cmap r db k db1 k1 heq]
      exact saveRemindersT_ok fail cmap rest db1 _ db' k' h

theorem save_extractionsT_ok (fail : Nat → Bool) (nid : Nat)
    (data : ExtractData) (db : DB) (db' : DB) (k' : Nat)
    (h : save_extractionsT fail nid data db = .ok (db', k')) :
    db' = save_extractions db nid data := by
  unfold save_extractionsT at h
  split at h
  · exact absurd h (by simp)
  · rename_i db1 k1 heq1
    split at h
    · exact absurd h (by simp)
    · rename_i db2 cmap k2 heq2
      unfold save_extractions
      dsimp only
      rw [← saveActionsT_ok fail nid data.action_items db 0 db1 k1 heq1]
      have hc := saveContactsT_ok fail nid data.contacts db1 [] k1 db2 cmap k2 heq2
      rw [← hc]
      dsimp only
      exact saveRemindersT_ok fail cmap data.reminders db2 _ db' k' h

/-- Claim C4: the consistency writer is atomic against the store.  Any
failing statement aborts the whole batch and `get_db` rolls the store back
to its initial state; if every statement succeeds, the committed store is
exactly the one produced by the (pure) `_save_extractions`. -/
theorem c4_save_extractions_atomic (fail : Nat → Bool) (nid : Nat)
    (data : ExtractData) (db : DB) :
    ((∃ e, save_extractionsT fail nid data db = .error e) →
      get_db (save_extractionsT fail nid data) db = db) ∧
    ((∃ res, save_extractionsT fail nid data db = .ok res) →
      get_db (save_extractionsT fail nid data) db =
        save_extractions db nid data) ∧
    (get_db (save_extractionsT fail nid data) db = db ∨
      get_db (save_extractionsT fail nid data) db =
        save_extractions db nid data) := by
  refine ⟨?_, ?_, ?_⟩
  · rintro ⟨e, he⟩
    unfold get_db
    rw [he]
  · rintro ⟨⟨db', k'⟩, hok⟩
    unfold get_db
    rw [hok]
    exact save_extractionsT_ok fail nid data db db' k' hok
  · rcases hres : save_extractionsT fail nid data db with e | ⟨db', k'⟩
    · left
      unfold get_db
      rw [hres]
    · right
      unfold get_db
      rw [hres]
      exact save_extractionsT_ok fail nid data db db' k' hres

theorem c4_witness :
    get_db (save_extractionsT (fun _ => true) 1 dataW) dbW = dbW ∧
    get_db (save_extractionsT (fun _ => false) 1 dataW) dbW =
      save_extractions dbW 1 dataW :=
  ⟨(c4_save_extractions_atomic (fun _ => true) 1 dataW dbW).1 ⟨(), by rfl⟩,
   (c4_save_extractions_atomic (fun _ => false) 1 dataW dbW).2.1
     ⟨(save_extractions dbW 1 dataW, 13), by rfl⟩⟩
